import Mathlib

/-!
# Schedula: verification of the appointment-calendar core

Shallow embedding of the Go backend of the Schedula appointment service:
the weekly recurrence engine (`domain.GenerateWeeklyOccurrences`), the
exception merger (`applyRecurringExceptions`), the pre-insert recurring
conflict checker (`ensureNoRecurringSeriesConflicts`), the store-level
appointment insert (`calendarTx.CreateAppointment`) and the appointment
service (`Service.Create`, `Service.CreateRecurringSeries`).

Modelling conventions:

* A `time.Time` instant is an `Int`: UTC nanoseconds since the Unix epoch.
  The Go zero `time.Time` (used only as the "unset" sentinel by the
  `BeforeAppendModel` hooks via `IsZero`) is modelled as `0`.
* A 128-bit UUID is a `Nat`; `uuid.Nil` is `0`.
* `time.Location` is modelled as an initial offset plus a sorted list of
  (transition unix second, new offset second) pairs, exactly the data the
  Go runtime reads from tzdata.  `time.LoadLocation` is modelled as a
  parameter `tzdb : String → Option Location` so theorems quantify over
  arbitrary zone databases.
* Go's `time.Date` resolves a wall-clock datetime in a zone to an instant
  by the two-step offset lookup of `go/src/time/time.go` (`Date`):
  look up the offset at the wall-clock seconds read as UTC; re-adjust by
  that offset; if the adjusted instant falls outside the zone segment the
  first lookup returned, take instead the offset of the neighbouring
  segment in the direction of the error.  `goDate` below reproduces it.
* Occurrence ids are produced by `strconv.FormatInt(startUTC.UnixNano(), 10)`,
  the base-10 decimal string of the nanosecond start.  Since decimal
  formatting of `int64` is injective, the id is modelled as the nanosecond
  integer itself.
-/

namespace Schedula

/-- Nanoseconds per second. -/
def nsPerSec : Int := 1000000000

/-- Seconds per day. -/
def secPerDay : Int := 86400

/-- Nanoseconds per day. -/
def nsPerDay : Int := secPerDay * nsPerSec

/-- Go `time.Location`: `baseOffset` is the offset (seconds east of UTC)
in force before the first transition; `transitions` lists
`(unix second at which a new offset starts, that offset)` in ascending
order of transition instant. -/
structure Location where
  baseOffset : Int
  transitions : List (Int × Int)
deriving DecidableEq

/-- Sentinel for the start of the first zone segment
(Go `zoneinfo.go` uses `alpha = math.MinInt64`). -/
def segAlpha : Int := -(2 ^ 63)

/-- Sentinel for the end of the last zone segment
(Go `zoneinfo.go` uses `omega = math.MaxInt64`). -/
def segOmega : Int := 2 ^ 63 - 1

/-- Helper for `Location.lookup`: scan the transition list carrying the
offset and start of the segment currently in force. -/
def lookupAux (off segStart : Int) : List (Int × Int) → Int → Int × Int × Int
  | [], _ => (off, segStart, segOmega)
  | (t, o) :: rest, sec => if sec < t then (off, segStart, t) else lookupAux o t rest sec

/-- Go `Location.lookup`: the offset in force at UTC second `sec`, together
with the segment `[start, end)` of seconds over which that offset holds. -/
def Location.lookup (loc : Location) (sec : Int) : Int × Int × Int :=
  lookupAux loc.baseOffset segAlpha loc.transitions sec

/-- The offset (seconds east of UTC) in force at UTC second `sec`. -/
def Location.offsetAt (loc : Location) (sec : Int) : Int :=
  (loc.lookup sec).1

/-- Unix seconds of an instant (floor division; `%` and `/` on `Int` are
Euclidean, which for the positive divisors used here agree with floor). -/
def unixSecOf (t : Int) : Int := t / nsPerSec

/-- Sub-second nanoseconds of an instant. -/
def nsecOf (t : Int) : Int := t % nsPerSec

/-- Local clock seconds of instant `t` in `loc`
(Go `Time.abs`: unix seconds plus the offset at `t`). -/
def localSec (loc : Location) (t : Int) : Int :=
  unixSecOf t + loc.offsetAt (unixSecOf t)

/-- Local civil day (days since 1970-01-01) of instant `t` in `loc`. -/
def localDay (loc : Location) (t : Int) : Int :=
  localSec loc t / secPerDay

/-- Local time of day, in seconds, of instant `t` in `loc`. -/
def localTodSec (loc : Location) (t : Int) : Int :=
  localSec loc t % secPerDay

/-- Local time of day of `t` in `loc`, in nanoseconds (combines
Go `Hour`/`Minute`/`Second`/`Nanosecond` of `t.In(loc)`). -/
def localTodNs (loc : Location) (t : Int) : Int :=
  localTodSec loc t * nsPerSec + nsecOf t

/-- Go `Time.Hour()` of `t.In(loc)`. -/
def localHour (loc : Location) (t : Int) : Int :=
  localTodSec loc t / 3600

/-- Go weekday (Sunday = 0 … Saturday = 6) of civil day `day`;
day 0 = 1970-01-01 was a Thursday. -/
def goWeekday (day : Int) : Int := (day + 4) % 7

/-- Go `time.Date` restricted to the shape used by the engine: resolve the
wall clock "civil day `day`, time of day `todSec` seconds plus `nsec`
nanoseconds" in `loc` to a UTC instant.  Follows `go/src/time/time.go`
`Date`: first lookup at the wall-clock seconds read as UTC, then the
correction switch on the adjusted instant. -/
def goDateSec (loc : Location) (day todSec : Int) : Int :=
  let wallSec := day * secPerDay + todSec
  let (off₀, segStart, segEnd) := loc.lookup wallSec
  if off₀ ≠ 0 then
    let utc := wallSec - off₀
    let off :=
      if utc < segStart then (loc.lookup (segStart - 1)).1
      else if segEnd ≤ utc then (loc.lookup segEnd).1
      else off₀
    wallSec - off
  else wallSec

/-- The resolved instant in nanoseconds (Go `unixTime(unix, nsec)`). -/
def goDate (loc : Location) (day todSec nsec : Int) : Int :=
  goDateSec loc day todSec * nsPerSec + nsec

/-- `days_from_civil` (Howard Hinnant's algorithm): days since 1970-01-01
of the Gregorian date `y-m-d`.  Used only to write concrete instants in
theorem statements. -/
def daysFromCivil (y m d : Int) : Int :=
  let y' := if m ≤ 2 then y - 1 else y
  let era := y' / 400
  let yoe := y' - era * 400
  let mp := if 2 < m then m - 3 else m + 9
  let doy := (153 * mp + 2) / 5 + d - 1
  let doe := yoe * 365 + yoe / 4 - yoe / 100 + doy
  era * 146097 + doe - 719468

/-- A concrete UTC instant from civil fields, as nanoseconds. -/
def utcInstant (y m d h mi s : Int) : Int :=
  (daysFromCivil y m d * secPerDay + h * 3600 + mi * 60 + s) * nsPerSec

/-- The UTC location (`time.UTC`): offset 0 always. -/
def utcLoc : Location := { baseOffset := 0, transitions := [] }

/-- Go `mondayDateUTC` (recurrence engine helper): the civil day, as a UTC
date, of the Monday on or before the local date of `t` in `loc`.  Go builds
`time.Date(y, m, d, 0, 0, 0, 0, UTC).AddDate(0, 0, -offset)` from the local
fields; on day numbers that is the local day minus the Monday offset. -/
def mondayDateUTC (loc : Location) (t : Int) : Int :=
  let day := localDay loc t
  let wd := goWeekday day
  day - (if wd = 0 then 6 else wd - 1)

/-- America/New_York, restricted to the segment of the IANA zone covering
2025-11-02 through 2026-11-01 (all instants evaluated in this file fall
inside it): EDT (−4 h) until 2025-11-02T06:00Z, EST (−5 h) until
2026-03-08T07:00Z, EDT until 2026-11-01T06:00Z, then EST. -/
def nyLoc : Location :=
  { baseOffset := -14400
    transitions :=
      [ (daysFromCivil 2025 11 2 * secPerDay + 6 * 3600, -18000)
      , (daysFromCivil 2026 3 8 * secPerDay + 7 * 3600, -14400)
      , (daysFromCivil 2026 11 1 * secPerDay + 6 * 3600, -18000) ] }

/-- Stable ascending sort used to model every ordered read in this file
(`sort.Slice`, SQL `ORDER BY`, and the service's hand-written insertion
sort).  Structural recursion keeps it kernel-reducible. -/
def insertBy (le : α → α → Bool) (x : α) : List α → List α
  | [] => [x]
  | y :: rest => if le x y then x :: y :: rest else y :: insertBy le x rest

/-- Insertion sort by `le`. -/
def sortBy (le : α → α → Bool) : List α → List α
  | [] => []
  | x :: rest => insertBy le x (sortBy le rest)

/-! ## Domain model (`internal/domain`) -/

/-- `domain.RecurringSeries` (instants as UTC nanoseconds, uuid as `Nat`). -/
structure RecurringSeries where
  ID : Nat
  UserID : String
  Title : String
  Notes : String
  Timezone : String
  DTStart : Int
  DurationSeconds : Int
  Frequency : String
  Interval : Int
  ByWeekday : List Int
  Until : Option Int
  Count : Option Int
  CreatedAt : Int := 0
  UpdatedAt : Int := 0
deriving DecidableEq

/-- `domain.RecurringOccurrence`.  The Go `ID` field is
`strconv.FormatInt(startUTC.UnixNano(), 10)`; decimal formatting being
injective on `int64`, it is modelled as the nanosecond integer itself. -/
structure RecurringOccurrence where
  ID : Int
  SeriesID : Nat
  UserID : String
  Title : String
  Notes : String
  StartTime : Int
  EndTime : Int
deriving DecidableEq

/-- `domain.RecurringException`. -/
structure RecurringException where
  ID : Nat
  SeriesID : Nat
  OccurrenceStart : Int
  Kind : String
  OverrideStart : Option Int
  OverrideEnd : Option Int
  OverrideTitle : Option String
  OverrideNotes : Option String
  CreatedAt : Int := 0
  UpdatedAt : Int := 0
deriving DecidableEq

/-- `domain.Appointment`. -/
structure Appointment where
  ID : Nat
  UserID : String
  Title : String
  Notes : String
  StartTime : Int
  EndTime : Int
  CreatedAt : Int := 0
  UpdatedAt : Int := 0
deriving DecidableEq

/-! ## Recurrence engine (`domain.GenerateWeeklyOccurrences`) -/

/-- Go `weekdayOffsetFromMonday`. -/
def weekdayOffsetFromMonday (wd : Int) : Int := if wd = 7 then 6 else wd - 1

/-- The weekday validation/deduplication loop of `GenerateWeeklyOccurrences`:
reject weekdays outside 1..7, drop duplicates, keep first-occurrence order. -/
def collectWeekdays (seen : List Int) : List Int → Except String (List Int)
  | [] => .ok []
  | wd :: rest =>
    if wd < 1 ∨ 7 < wd then .error "invalid weekday"
    else if seen.contains wd then collectWeekdays seen rest
    else
      match collectWeekdays (wd :: seen) rest with
      | .error e => .error e
      | .ok tail => .ok (wd :: tail)

/-- `series.Until != nil && startUTC.After(series.Until.UTC())`. -/
def untilExceeded (u? : Option Int) (startUTC : Int) : Bool :=
  match u? with
  | none => false
  | some u => u < startUTC

/-- The loop-invariant context of `GenerateWeeklyOccurrences`: everything
computed before the week loop starts. -/
structure GenCtx where
  loc : Location
  seriesID : Nat
  userID : String
  title : String
  notes : String
  dtstartUTC : Int
  dtTodSec : Int
  dtNsec : Int
  durationNs : Int
  weekdays : List Int
  interval : Int
  startWeekMonday : Int
  windowStart : Int
  windowEnd : Int
  boundary : Int
  untilUTC : Option Int
  maxCount : Int
  occPerWeek : Int
  skippedInFirstWeek : Int

/-- The candidate start instant for weekday `wd` in the week whose Monday is
civil day `weekMonday`: the wall clock of dtstart's local time of day on
that date, resolved through the zone (Go `time.Date(..., loc).UTC()`). -/
def GenCtx.candidate (ctx : GenCtx) (weekMonday wd : Int) : Int :=
  goDate ctx.loc (weekMonday + weekdayOffsetFromMonday wd) ctx.dtTodSec ctx.dtNsec

/-- Build the emitted occurrence for a candidate. -/
def GenCtx.mkOcc (ctx : GenCtx) (startUTC endUTC : Int) : RecurringOccurrence :=
  { ID := startUTC, SeriesID := ctx.seriesID, UserID := ctx.userID,
    Title := ctx.title, Notes := ctx.notes, StartTime := startUTC, EndTime := endUTC }

/-- The inner weekday loop of `GenerateWeeklyOccurrences`.  The `Bool`
component is `true` when the Go loop executed `return out, nil` early
(`until` passed or the count cap reached). -/
def weekdayLoop (ctx : GenCtx) (weekMonday weekIndex : Int) :
    List Int → Int → List RecurringOccurrence → Bool × List RecurringOccurrence
  | [], _, out => (false, out)
  | wd :: rest, j, out =>
    let startUTC := ctx.candidate weekMonday wd
    if startUTC < ctx.dtstartUTC then
      weekdayLoop ctx weekMonday weekIndex rest (j + 1) out
    else if untilExceeded ctx.untilUTC startUTC then (true, out)
    else if 0 ≤ ctx.maxCount ∧ ctx.maxCount ≤ weekIndex * ctx.occPerWeek + j - ctx.skippedInFirstWeek then
      (true, out)
    else
      let endUTC := startUTC + ctx.durationNs
      let out' :=
        if startUTC < ctx.windowEnd ∧ ctx.windowStart < endUTC
        then out ++ [ctx.mkOcc startUTC endUTC] else out
      weekdayLoop ctx weekMonday weekIndex rest (j + 1) out'

/-- The outer week loop of `GenerateWeeklyOccurrences`.  Fuel-based: each Go
iteration advances the week Monday by `interval*7 ≥ 7` days towards the
fixed `boundary`, so any fuel of at least `boundary - firstWeekMonday + 1`
makes the `0` case unreachable. -/
def weekLoop (ctx : GenCtx) : Nat → Int → List RecurringOccurrence → List RecurringOccurrence
  | 0, _, out => out
  | fuel + 1, weekIndex, out =>
    let weekMonday := ctx.startWeekMonday + weekIndex * ctx.interval * 7
    if ctx.boundary ≤ weekMonday then out
    else
      match weekdayLoop ctx weekMonday weekIndex ctx.weekdays 0 out with
      | (true, out') => out'
      | (false, out') => weekLoop ctx fuel (weekIndex + 1) out'

/-- Fuel that dominates the week-loop iteration count. -/
def genFuel (startWeekMonday boundary startWeekIndex interval : Int) : Nat :=
  (boundary - (startWeekMonday + startWeekIndex * interval * 7)).toNat + 1

/-- Assemble the `GenCtx` for a series whose header validation succeeded. -/
def mkGenCtx (loc : Location) (series : RecurringSeries) (weekdays : List Int)
    (windowStart windowEnd : Int) : GenCtx :=
  let interval := if series.Interval < 1 then 1 else series.Interval
  let dtTodSec := localTodSec loc series.DTStart
  let dtNsec := nsecOf series.DTStart
  let startWeekMonday := mondayDateUTC loc series.DTStart
  { loc := loc
    seriesID := series.ID
    userID := series.UserID
    title := series.Title
    notes := series.Notes
    dtstartUTC := series.DTStart
    dtTodSec := dtTodSec
    dtNsec := dtNsec
    durationNs := series.DurationSeconds * nsPerSec
    weekdays := weekdays
    interval := interval
    startWeekMonday := startWeekMonday
    windowStart := windowStart
    windowEnd := windowEnd
    boundary := mondayDateUTC loc windowEnd + 7
    untilUTC := series.Until
    maxCount := match series.Count with | some c => c | none => -1
    occPerWeek := weekdays.length
    skippedInFirstWeek :=
      weekdays.countP (fun wd =>
        goDate loc (startWeekMonday + weekdayOffsetFromMonday wd) dtTodSec dtNsec < series.DTStart) }

/-- The `startWeekIndex` computation of `GenerateWeeklyOccurrences`. -/
def startWeekIndexOf (ctx : GenCtx) : Int :=
  let wsMonday := mondayDateUTC ctx.loc ctx.windowStart
  if ctx.startWeekMonday < wsMonday then
    let daysDiff := wsMonday - ctx.startWeekMonday
    let idx := daysDiff / (7 * ctx.interval)
    if idx < 0 then 0 else idx
  else 0

/-- `domain.GenerateWeeklyOccurrences`.  `tzdb` models `time.LoadLocation`
(`none` = unknown zone). -/
def GenerateWeeklyOccurrences (tzdb : String → Option Location) (series : RecurringSeries)
    (windowStart windowEnd : Int) : Except String (List RecurringOccurrence) :=
  if series.Frequency ≠ "weekly" then .error "unsupported recurrence frequency"
  else if series.DurationSeconds ≤ 0 then .error "invalid duration"
  else
    match tzdb series.Timezone with
    | none => .error "invalid time_zone"
    | some loc =>
      match collectWeekdays [] series.ByWeekday with
      | .error e => .error e
      | .ok wds =>
        if wds = [] then .error "at least one weekday is required"
        else
          let weekdays := sortBy (fun a b => a ≤ b) wds
          let ctx := mkGenCtx loc series weekdays windowStart windowEnd
          let startWeekIndex := startWeekIndexOf ctx
          .ok (weekLoop ctx (genFuel ctx.startWeekMonday ctx.boundary startWeekIndex ctx.interval)
            startWeekIndex [])

/-! ## Exception merger (`postgres.applyRecurringExceptions`) -/

/-- The exception lookup of `applyRecurringExceptions`: Go builds
`map[int64]domain.RecurringException` keyed by
`OccurrenceStart.UTC().UnixNano()`, later list entries overwriting earlier
ones; so a lookup finds the last entry with the given key. -/
def exByStart (exs : List RecurringException) (key : Int) : Option RecurringException :=
  exs.reverse.find? (fun e => e.OccurrenceStart = key)

/-- The occurrence loop of `applyRecurringExceptions`. -/
def applyExceptionsLoop (exs : List RecurringException) (ws we : Int) :
    List RecurringOccurrence → List RecurringOccurrence
  | [] => []
  | o :: rest =>
    match exByStart exs o.StartTime with
    | none => o :: applyExceptionsLoop exs ws we rest
    | some ex =>
      if ex.Kind = "skip" then applyExceptionsLoop exs ws we rest
      else
        let start := match ex.OverrideStart with | some s => s | none => o.StartTime
        let end_ := match ex.OverrideEnd with | some e => e | none => o.EndTime
        let title := match ex.OverrideTitle with | some t => t | none => o.Title
        let notes := match ex.OverrideNotes with | some n => n | none => o.Notes
        if start < we ∧ ws < end_ then
          { ID := o.ID, SeriesID := o.SeriesID, UserID := o.UserID,
            Title := title, Notes := notes, StartTime := start, EndTime := end_ } ::
            applyExceptionsLoop exs ws we rest
        else applyExceptionsLoop exs ws we rest

/-- `postgres.applyRecurringExceptions`. -/
def applyRecurringExceptions (occs : List RecurringOccurrence)
    (exs : List RecurringException) (ws we : Int) : List RecurringOccurrence :=
  if exs.length = 0 then occs else applyExceptionsLoop exs ws we occs

/-! ## Calendar store (`internal/store`, `internal/store/postgres`) -/

/-- The durable state of one database: the three relations of the schema. -/
structure CalendarState where
  appointments : List Appointment
  series : List RecurringSeries
  exceptions : List RecurringException
deriving DecidableEq

/-- The error kinds of the service/store layers (`store.ErrConflict`,
`store.ErrNotFound`, `store.ErrIdempotencyConflict`,
`appointments.ValidationError`); `engine` carries the plain `errors.New`
errors that `GenerateWeeklyOccurrences` returns and the layers propagate
unwrapped, and `internal` the remaining unclassified faults. -/
inductive Err where
  | validation (msg : String)
  | conflict
  | idempotencyConflict
  | notFound
  | engine (msg : String)
  | internal (msg : String)
deriving DecidableEq

/-- `store.RecurringConflictLookahead` (180 days), in nanoseconds. -/
def RecurringConflictLookahead : Int := 180 * 24 * 3600 * nsPerSec

/-- The ±14-day exception-lookup buffer, in nanoseconds. -/
def exceptionBuffer : Int := 14 * 24 * 3600 * nsPerSec

/-- `calendarTx.ListAppointments`: rows of the user whose half-open interval
meets the window, ordered by start ascending. -/
def txListAppointments (st : CalendarState) (userID : String) (ws we : Int) : List Appointment :=
  sortBy (fun a b => a.StartTime ≤ b.StartTime)
    (st.appointments.filter (fun a => a.UserID = userID ∧ a.StartTime < we ∧ ws < a.EndTime))

/-- `calendarTx.ListRecurringSeries`: the user's series ordered by dtstart. -/
def txListRecurringSeries (st : CalendarState) (userID : String) : List RecurringSeries :=
  sortBy (fun a b => a.DTStart ≤ b.DTStart) (st.series.filter (fun s => s.UserID = userID))

/-- `calendarTx.ListRecurringExceptions`: the series's exceptions with
`occurrence_start` in `[ws, we)` (no ordering clause in the query; the
stored order stands in for the unspecified scan order). -/
def txListRecurringExceptions (st : CalendarState) (seriesID : Nat) (ws we : Int) :
    List RecurringException :=
  st.exceptions.filter (fun e => e.SeriesID = seriesID ∧ ws ≤ e.OccurrenceStart ∧ e.OccurrenceStart < we)

/-- `postgres.timeSpan`. -/
structure TimeSpan where
  Start : Int
  End : Int
deriving DecidableEq

/-- `sort.Slice(occs, func(i, j) { return occs[i].StartTime.Before(occs[j].StartTime) })`. -/
def sortOccs (l : List RecurringOccurrence) : List RecurringOccurrence :=
  sortBy (fun a b => a.StartTime ≤ b.StartTime) l

/-- The horizon window end of `ensureNoRecurringSeriesConflicts` before the
last-occurrence adjustment: dtstart + 180 days, truncated to `until` if
that precedes it, plus the series duration. -/
def conflictHorizonEnd (series : RecurringSeries) : Int :=
  let windowEnd := series.DTStart + RecurringConflictLookahead
  let windowEnd :=
    match series.Until with
    | some u => if u < windowEnd then u else windowEnd
    | none => windowEnd
  windowEnd + series.DurationSeconds * nsPerSec

/-- The expansion of the inserting series over the conflict horizon. -/
def newSeriesOccs (tzdb : String → Option Location) (series : RecurringSeries) :
    Except String (List RecurringOccurrence) :=
  GenerateWeeklyOccurrences tzdb series series.DTStart (conflictHorizonEnd series)

/-- The self-check loop: `newOccs[i-1].EndTime.After(newOccs[i].StartTime)`
for some consecutive pair. -/
def consecutiveOverlap : List RecurringOccurrence → Bool
  | a :: b :: rest => (b.StartTime < a.EndTime) || consecutiveOverlap (b :: rest)
  | _ => false

/-- The per-series part of the conflict check: expand each stored series of
the user over the comparison window, apply its exceptions (±14-day
buffered lookup), and record the occurrence spans. -/
def collectSeriesSpans (tzdb : String → Option Location) (st : CalendarState)
    (ws we : Int) : List RecurringSeries → Except String (List TimeSpan)
  | [] => .ok []
  | s :: rest =>
    match GenerateWeeklyOccurrences tzdb s ws we with
    | .error e => .error e
    | .ok occs =>
      match collectSeriesSpans tzdb st ws we rest with
      | .error e => .error e
      | .ok tailSpans =>
        if occs = [] then .ok tailSpans
        else
          let exs := txListRecurringExceptions st s.ID (ws - exceptionBuffer) (we + exceptionBuffer)
          let adjusted := applyRecurringExceptions occs exs ws we
          .ok (adjusted.map (fun o => { Start := o.StartTime, End := o.EndTime }) ++ tailSpans)

/-- The strict half-open overlap test of the final loop:
`ns.Before(e.End) && ne.After(e.Start)`. -/
def spanOverlaps (n : RecurringOccurrence) (e : TimeSpan) : Bool :=
  n.StartTime < e.End ∧ e.Start < n.EndTime

/-- `postgres.ensureNoRecurringSeriesConflicts`. -/
def ensureNoRecurringSeriesConflicts (tzdb : String → Option Location)
    (st : CalendarState) (series : RecurringSeries) : Except Err Unit :=
  let windowStart := series.DTStart
  match newSeriesOccs tzdb series with
  | .error e => .error (.engine e)
  | .ok newOccs =>
    if newOccs = [] then .ok ()
    else
      let sorted := sortOccs newOccs
      let windowEnd := (sorted.getLast?.map (fun o => o.EndTime)).getD 0
      if consecutiveOverlap sorted then .error .conflict
      else
        let appts := txListAppointments st series.UserID windowStart windowEnd
        let apptSpans := appts.map (fun a => ({ Start := a.StartTime, End := a.EndTime } : TimeSpan))
        match collectSeriesSpans tzdb st windowStart windowEnd (txListRecurringSeries st series.UserID) with
        | .error e => .error (.engine e)
        | .ok seriesSpans =>
          let existing := apptSpans ++ seriesSpans
          if sorted.any (fun n => existing.any (fun e => spanOverlaps n e)) then .error .conflict
          else .ok ()

/-- `Appointment.BeforeAppendModel` for an insert: assign a fresh
time-ordered id when the id is nil and stamp zero created/updated
instants with `now`. -/
def beforeInsertAppointment (now : Int) (freshId : Nat) (a : Appointment) : Appointment :=
  { a with
    ID := if a.ID = 0 then freshId else a.ID
    CreatedAt := if a.CreatedAt = 0 then now else a.CreatedAt
    UpdatedAt := if a.UpdatedAt = 0 then now else a.UpdatedAt }

/-- The outcome of an insert attempt against the appointments relation of
migration 00001 (`src/unnamed/part_000`): the table carries a primary key
on `id`, the check constraint `appointments_valid_time_range`
(`CHECK (end_time > start_time)`), and the exclusion constraint
`appointments_no_overlap` over `(user_id WITH =, tstzrange(start_time,
end_time) WITH &&)` with closed-open range bounds, so exactly abutting
rows do not overlap.  PostgreSQL evaluates the per-row check constraint
while forming the tuple, before any index maintenance, so a non-positive
interval raises the check violation (`23514`) ahead of the index
constraints; among those, the unique-id signal (`23505`) takes precedence
over the exclusion signal (`23P01`) when both are violated, as the
repository's integration test requires (it replays a row identical to a
stored one — violating both constraints — and expects the
idempotent-replay branch, which only the unique-id signal reaches). -/
inductive InsertSignal where
  | ok
  | checkViolation
  | uniqueViolation
  | overlapViolation
deriving DecidableEq

/-- Which signal an insert of `m` into the appointments relation of
migration 00001 raises against the stored rows (see `InsertSignal`). -/
def insertSignal (rows : List Appointment) (m : Appointment) : InsertSignal :=
  if m.EndTime ≤ m.StartTime then .checkViolation
  else if rows.any (fun r => r.ID = m.ID) then .uniqueViolation
  else if rows.any (fun r => r.UserID = m.UserID ∧ r.StartTime < m.EndTime ∧ m.StartTime < r.EndTime)
    then .overlapViolation
  else .ok

/-- `calendarTx.CreateAppointment`.  Returns the call's result together with
the post-transaction state (unchanged on error: the transaction rolls
back).  Only the overlap and unique-id signals are classified by the Go
code; a check violation matches neither `pgErr` branch and falls through
to the generic `return domain.Appointment{}, err`, modelled as
`internal`. -/
def txCreateAppointment (now : Int) (freshId : Nat) (st : CalendarState) (appt : Appointment) :
    Except Err Appointment × CalendarState :=
  let m := beforeInsertAppointment now freshId
    { ID := appt.ID, UserID := appt.UserID, Title := appt.Title, Notes := appt.Notes,
      StartTime := appt.StartTime, EndTime := appt.EndTime,
      CreatedAt := appt.CreatedAt, UpdatedAt := appt.UpdatedAt }
  match insertSignal st.appointments m with
  | .checkViolation => (.error (.internal "appointments_valid_time_range"), st)
  | .overlapViolation => (.error .conflict, st)
  | .uniqueViolation =>
    match st.appointments.find? (fun r => r.ID = m.ID) with
    | none => (.error (.internal "select of existing row failed"), st)
    | some existing =>
      if existing.UserID ≠ appt.UserID ∨ existing.Title ≠ appt.Title ∨
          existing.Notes ≠ appt.Notes ∨ existing.StartTime ≠ appt.StartTime ∨
          existing.EndTime ≠ appt.EndTime
      then (.error .idempotencyConflict, st)
      else (.ok existing, st)
  | .ok =>
    (.ok { appt with ID := m.ID }, { st with appointments := st.appointments ++ [m] })

/-- `AppointmentRepo.ListOccurrences` series loop: expand each series of the
user over the window, apply its exceptions, concatenate. -/
def collectOccurrences (tzdb : String → Option Location) (st : CalendarState)
    (ws we : Int) : List RecurringSeries → Except String (List RecurringOccurrence)
  | [] => .ok []
  | s :: rest =>
    match GenerateWeeklyOccurrences tzdb s ws we with
    | .error e => .error e
    | .ok occs =>
      match collectOccurrences tzdb st ws we rest with
      | .error e => .error e
      | .ok tailOccs =>
        if occs = [] then .ok tailOccs
        else
          let exs := txListRecurringExceptions st s.ID (ws - exceptionBuffer) (we + exceptionBuffer)
          .ok (applyRecurringExceptions occs exs ws we ++ tailOccs)

/-- `AppointmentRepo.ListOccurrences`. -/
def listOccurrencesRepo (tzdb : String → Option Location) (st : CalendarState)
    (userID : String) (ws we : Int) : Except Err (List RecurringOccurrence) :=
  let seriesRows := st.series.filter (fun s => s.UserID = userID ∧ s.DTStart < we)
  match collectOccurrences tzdb st ws we seriesRows with
  | .error e => .error (.engine e)
  | .ok out => .ok (sortOccs out)

/-! ## Appointment service (`internal/service/appointments`) -/

/-- Go `unicode.IsSpace`: the Unicode White_Space code points. -/
def goIsSpace (c : Char) : Bool :=
  let n := c.toNat
  n = 0x20 ∨ (0x9 ≤ n ∧ n ≤ 0xD) ∨ n = 0x85 ∨ n = 0xA0 ∨ n = 0x1680 ∨
    (0x2000 ≤ n ∧ n ≤ 0x200A) ∨ n = 0x2028 ∨ n = 0x2029 ∨ n = 0x202F ∨ n = 0x205F ∨ n = 0x3000

/-- Go `strings.TrimSpace`: drop White_Space characters from both ends. -/
def goTrimSpace (s : String) : String :=
  String.mk (((s.data.dropWhile goIsSpace).reverse.dropWhile goIsSpace).reverse)

/-- `appointments.CreateInput`. -/
structure CreateInput where
  UserID : String
  Title : String
  Notes : String
  StartTime : Int
  EndTime : Int
  IdempotencyKey : String
deriving DecidableEq

/-- 24 hours in nanoseconds. -/
def hours24Ns : Int := 24 * 3600 * nsPerSec

/-- The namespaced name hashed for a deterministic idempotent id. -/
def idempotencyName (userID key : String) : String :=
  "schedula:create_appointment:" ++ userID ++ ":" ++ key

/-- `appointments.Service.Create`.  `newSHA1` models
`uuid.NewSHA1(uuid.NameSpaceOID, ·)` (an arbitrary deterministic digest into
128-bit ids); `now` and `freshId` model `time.Now` and `uuid.NewV7` at the
store's insert hook. -/
def serviceCreate (newSHA1 : String → Nat) (now : Int) (freshId : Nat)
    (st : CalendarState) (input : CreateInput) : Except Err Appointment × CalendarState :=
  let title := goTrimSpace input.Title
  if title = "" then (.error (.validation "title is required"), st)
  else if input.UserID = "" then (.error (.validation "user_id is required"), st)
  else
    let start := input.StartTime
    let end_ := input.EndTime
    if end_ = start ∨ end_ < start then
      (.error (.validation "end_time must be after start_time"), st)
    else if hours24Ns < end_ - start then (.error (.validation "duration too long"), st)
    else
      let appt : Appointment :=
        { ID := 0, UserID := input.UserID, Title := title, Notes := input.Notes,
          StartTime := start, EndTime := end_, CreatedAt := 0, UpdatedAt := 0 }
      let key := goTrimSpace input.IdempotencyKey
      if key ≠ "" then
        if 256 < key.utf8ByteSize then (.error (.validation "idempotency_key too long"), st)
        else txCreateAppointment now freshId st
          { appt with ID := newSHA1 (idempotencyName input.UserID key) }
      else txCreateAppointment now freshId st appt

/-- `appointments.RecurrenceRuleInput`. -/
structure RecurrenceRuleInput where
  Frequency : String
  Interval : Int
  ByWeekday : List Int
  Until : Option Int
  Count : Option Int
  TimeZone : String
deriving DecidableEq

/-- `appointments.CreateRecurringSeriesInput`. -/
structure CreateRecurringSeriesInput where
  UserID : String
  Title : String
  Notes : String
  StartTime : Int
  EndTime : Int
  Rule : RecurrenceRuleInput
deriving DecidableEq

/-- The hand-written insertion sort of `Service.CreateRecurringSeries`:
a stable ascending sort, extensionally `sortBy (· ≤ ·)`. -/
def insertionSortInts (l : List Int) : List Int :=
  sortBy (fun a b => a ≤ b) l

/-- The weekday list after the empty-set default of
`Service.CreateRecurringSeries`: an empty input set defaults to the
weekday of start in the series's local zone (Sunday encoded as 7). -/
def defaultedWeekdays (loc : Location) (input : CreateRecurringSeriesInput) : List Int :=
  if input.Rule.ByWeekday = [] then
    let wd := goWeekday (localDay loc input.StartTime)
    if wd = 0 then [7] else [wd]
  else input.Rule.ByWeekday

/-- The one-shot expansion bound of `Service.CreateRecurringSeries`:
start + 180 days, truncated to until when until precedes it. -/
def occLimitEndOf (start : Int) (u? : Option Int) : Int :=
  match u? with
  | some u => if u < start + RecurringConflictLookahead then u
      else start + RecurringConflictLookahead
  | none => start + RecurringConflictLookahead

/-- The normalized series `Service.CreateRecurringSeries` builds for valid
inputs (weekdays already validated/deduplicated as `normalized`). -/
def serviceSeries (input : CreateRecurringSeriesInput) (normalized : List Int) :
    RecurringSeries :=
  { ID := 0, UserID := input.UserID, Title := goTrimSpace input.Title, Notes := input.Notes,
    Timezone := goTrimSpace input.Rule.TimeZone, DTStart := input.StartTime,
    DurationSeconds := (input.EndTime - input.StartTime) / nsPerSec,
    Frequency := if input.Rule.Frequency = "" then "weekly" else input.Rule.Frequency,
    Interval := if input.Rule.Interval = 0 then 1 else input.Rule.Interval,
    ByWeekday := insertionSortInts normalized,
    Until := input.Rule.Until, Count := input.Rule.Count }

/-- `appointments.Service.CreateRecurringSeries`, up to the store call:
`repoCreate` stands for `s.repo.CreateRecurringSeries` (per-user lock,
conflict check and insert), which the validated, normalized series is
handed to. -/
def serviceCreateRecurringSeries (tzdb : String → Option Location)
    (repoCreate : RecurringSeries → Except Err RecurringSeries)
    (input : CreateRecurringSeriesInput) : Except Err RecurringSeries :=
  if goTrimSpace input.Title = "" then .error (.validation "title is required")
  else if input.UserID = "" then .error (.validation "user_id is required")
  else if (if input.Rule.Frequency = "" then "weekly" else input.Rule.Frequency) ≠ "weekly" then
    .error (.validation "unsupported frequency")
  else if goTrimSpace input.Rule.TimeZone = "" then .error (.validation "time_zone is required")
  else
    match tzdb (goTrimSpace input.Rule.TimeZone) with
    | none => .error (.validation "invalid time_zone")
    | some loc =>
      if input.EndTime = input.StartTime ∨ input.EndTime < input.StartTime then
        .error (.validation "end_time must be after start_time")
      else if hours24Ns < input.EndTime - input.StartTime then
        .error (.validation "duration too long")
      else if (if input.Rule.Interval = 0 then 1 else input.Rule.Interval) < 1 then
        .error (.validation "interval must be at least 1")
      else
        match collectWeekdays [] (defaultedWeekdays loc input) with
        | .error e => .error (.validation e)
        | .ok normalized =>
          if normalized = [] then .error (.validation "at least one weekday is required")
          else if (match input.Rule.Until with
              | some u => decide (u < input.StartTime) | none => false) then
            .error (.validation "until must be after start_time")
          else if (match input.Rule.Count with
              | some c => decide (c < 1) | none => false) then
            .error (.validation "count must be at least 1")
          else if input.Rule.Until = none ∧ input.Rule.Count = none then
            .error (.validation "until or count is required")
          else if decide (input.Rule.Count = none) && (match input.Rule.Until with
              | some u => decide (input.StartTime + RecurringConflictLookahead < u)
              | none => false) then
            .error (.validation "until must be within 180 days of start_time")
          else
            let series := serviceSeries input normalized
            let occLimitEnd := occLimitEndOf input.StartTime input.Rule.Until
            let seriesForCount := { series with Until := some occLimitEnd, Count := none }
            match GenerateWeeklyOccurrences tzdb seriesForCount input.StartTime
                (occLimitEnd + series.DurationSeconds * nsPerSec) with
            | .error e => .error (.engine e)
            | .ok occs =>
              if occs = [] then .error (.validation "recurrence rule produces no occurrences")
              else if (match input.Rule.Count with
                  | some c => decide (occs.length < c) | none => false) then
                if (match input.Rule.Until with
                    | some u => decide (u < input.StartTime + RecurringConflictLookahead)
                    | none => false) then
                  .error (.validation "count exceeds occurrences available before until")
                else
                  .error (.validation "count exceeds occurrences available within 180 days of start_time")
              else repoCreate series

/-! #### Fixture defs follow -/

/-! ## Concrete fixtures -/

deriving instance DecidableEq for Except

/-- A zone database exposing the two zones exercised by the concrete
scenarios. -/
def sampleTzdb : String → Option Location :=
  fun s =>
    if s = "America/New_York" then some nyLoc
    else if s = "UTC" then some utcLoc
    else none

/-- Scenario S5 of the spec: weekly Sunday series at 09:00 America/New_York
local, dtstart 2026-03-01, one hour long, count 4. -/
def seriesS5 : RecurringSeries :=
  { ID := 5
    UserID := "u1"
    Title := "t"
    Notes := ""
    Timezone := "America/New_York"
    DTStart := goDate nyLoc (daysFromCivil 2026 3 1) (9 * 3600) 0
    DurationSeconds := 3600
    Frequency := "weekly"
    Interval := 1
    ByWeekday := [7]
    Until := none
    Count := some 4 }

/-- The calendar holding exactly scenario S5's series. -/
def stateS5 : CalendarState :=
  { appointments := [], series := [seriesS5], exceptions := [] }

/-- C3's amendment hinges on this predicate: the zone resolves the wall
clock "civil day `day` at `todSec` seconds" faithfully, i.e. reading the
resolved instant back in the zone yields the same time of day.  It fails
exactly when the wall clock is remapped by the correction switch of
`time.Date` — a wall clock inside a DST gap. -/
def wallClockResolves (loc : Location) (day todSec : Int) : Prop :=
  localTodSec loc (goDate loc day todSec 0) = todSec

/-- A series whose local time of day (02:30 America/New_York) falls inside
the DST gap of 2026-03-08: weekly Sunday series anchored 2026-03-01T02:30
local (EST). -/
def seriesGap : RecurringSeries :=
  { seriesS5 with
    ID := 6
    DTStart := goDate nyLoc (daysFromCivil 2026 3 1) (2 * 3600 + 1800) 0
    Count := some 2 }

/-- A weekly Monday 09:00 UTC series (Go unit-test fixture shape), used to
instantiate hypotheses of general theorems at a concrete input. -/
def seriesUtcMon : RecurringSeries :=
  { ID := 2
    UserID := "u1"
    Title := "title"
    Notes := ""
    Timezone := "UTC"
    DTStart := utcInstant 2026 1 5 9 0 0
    DurationSeconds := 3600
    Frequency := "weekly"
    Interval := 1
    ByWeekday := [1]
    Until := none
    Count := some 2 }

/-- Per-occurrence facts that hold of everything the engine emits,
phrased against the raw loop context. -/
def CtxShape (ctx : GenCtx) (o : RecurringOccurrence) : Prop :=
  (∃ d, o.StartTime = goDate ctx.loc d ctx.dtTodSec ctx.dtNsec) ∧
  ctx.dtstartUTC ≤ o.StartTime ∧
  o.ID = o.StartTime ∧
  o.EndTime = o.StartTime + ctx.durationNs ∧
  o.SeriesID = ctx.seriesID ∧ o.UserID = ctx.userID ∧
  o.Title = ctx.title ∧ o.Notes = ctx.notes ∧
  o.StartTime < ctx.windowEnd ∧ ctx.windowStart < o.EndTime ∧
  (∀ u, ctx.untilUTC = some u → o.StartTime ≤ u)

/-- Per-occurrence facts that hold of everything
`GenerateWeeklyOccurrences` emits, phrased against the series. -/
def GeneratedShape (loc : Location) (series : RecurringSeries) (ws we : Int)
    (o : RecurringOccurrence) : Prop :=
  (∃ d, o.StartTime = goDate loc d (localTodSec loc series.DTStart) (nsecOf series.DTStart)) ∧
  series.DTStart ≤ o.StartTime ∧ o.ID = o.StartTime ∧
  o.EndTime = o.StartTime + series.DurationSeconds * nsPerSec ∧
  o.SeriesID = series.ID ∧ o.UserID = series.UserID ∧
  o.Title = series.Title ∧ o.Notes = series.Notes ∧
  o.StartTime < we ∧ ws < o.EndTime ∧
  (∀ u, series.Until = some u → o.StartTime ≤ u)

/-- The expansion of `seriesUtcMon` over [2026-01-05T00:00Z, 2026-01-19T00:00Z):
Mondays Jan 5 and Jan 12 at 09:00Z. -/
def occsUtcMon : List RecurringOccurrence :=
  [ { ID := utcInstant 2026 1 5 9 0 0, SeriesID := 2, UserID := "u1", Title := "title",
      Notes := "", StartTime := utcInstant 2026 1 5 9 0 0,
      EndTime := utcInstant 2026 1 5 10 0 0 }
  , { ID := utcInstant 2026 1 12 9 0 0, SeriesID := 2, UserID := "u1", Title := "title",
      Notes := "", StartTime := utcInstant 2026 1 12 9 0 0,
      EndTime := utcInstant 2026 1 12 10 0 0 } ]

/-- The per-occurrence specification of the exception merger, following the
spec's words: look the occurrence's start instant up among the exceptions
by exact nanosecond identity; no match passes the occurrence through; a
skip drops it; an override replaces start/end/title/notes by the override's
present fields, keeps the originals for absent ones, and keeps the result
iff the mutated interval still intersects the window. -/
def specMergeException (exs : List RecurringException) (ws we : Int)
    (o : RecurringOccurrence) : Option RecurringOccurrence :=
  match exs.find? (fun e => e.OccurrenceStart = o.StartTime) with
  | none => some o
  | some ex =>
    if ex.Kind = "skip" then none
    else
      let merged : RecurringOccurrence :=
        { ID := o.ID, SeriesID := o.SeriesID, UserID := o.UserID,
          Title := ex.OverrideTitle.getD o.Title,
          Notes := ex.OverrideNotes.getD o.Notes,
          StartTime := ex.OverrideStart.getD o.StartTime,
          EndTime := ex.OverrideEnd.getD o.EndTime }
      if merged.StartTime < we ∧ ws < merged.EndTime then some merged else none

/-- Exceptions used to instantiate the merger theorems concretely: a skip
of the Jan 5 occurrence and an override moving the Jan 12 occurrence by
30 minutes. -/
def exsWitness : List RecurringException :=
  [ { ID := 11, SeriesID := 2, OccurrenceStart := utcInstant 2026 1 5 9 0 0, Kind := "skip",
      OverrideStart := none, OverrideEnd := none, OverrideTitle := none, OverrideNotes := none }
  , { ID := 12, SeriesID := 2, OccurrenceStart := utcInstant 2026 1 12 9 0 0, Kind := "override",
      OverrideStart := some (utcInstant 2026 1 12 9 30 0),
      OverrideEnd := some (utcInstant 2026 1 12 10 30 0),
      OverrideTitle := some "moved", OverrideNotes := none } ]

/-- The appointment record `Service.Create` hands the store when a
(trimmed) idempotency key is present: title trimmed, instants normalized,
id derived from the namespaced (user, key) name. -/
def serviceApptKeyed (newSHA1 : String → Nat) (input : CreateInput) : Appointment :=
  { ID := newSHA1 (idempotencyName input.UserID (goTrimSpace input.IdempotencyKey)),
    UserID := input.UserID, Title := goTrimSpace input.Title, Notes := input.Notes,
    StartTime := input.StartTime, EndTime := input.EndTime, CreatedAt := 0, UpdatedAt := 0 }

/-- The appointment record `Service.Create` hands the store when no key is
present: nil id, to be replaced by a fresh time-ordered id at insert. -/
def serviceApptPlain (input : CreateInput) : Appointment :=
  { ID := 0, UserID := input.UserID, Title := goTrimSpace input.Title, Notes := input.Notes,
    StartTime := input.StartTime, EndTime := input.EndTime, CreatedAt := 0, UpdatedAt := 0 }

/-- An empty calendar. -/
def emptyCalendar : CalendarState := { appointments := [], series := [], exceptions := [] }

/-- A plain appointment input with zero timestamps and nil id. -/
def apptC8 : Appointment :=
  { ID := 0, UserID := "u1", Title := "t", Notes := "",
    StartTime := utcInstant 2026 1 1 10 0 0, EndTime := utcInstant 2026 1 1 11 0 0,
    CreatedAt := 0, UpdatedAt := 0 }

/-- The calendar after inserting `apptC8` at `now = 7` with fresh id 42. -/
def stC8 : CalendarState :=
  { appointments := [beforeInsertAppointment 7 42 apptC8], series := [], exceptions := [] }

/-- A deterministic stand-in for `uuid.NewSHA1` in concrete witnesses. -/
def shaW : String → Nat := fun _ => 77

/-- A keyed create input (witness fixture): raw title and key carry
surrounding whitespace. -/
def in1W : CreateInput :=
  { UserID := "u1", Title := " t ", Notes := "n",
    StartTime := utcInstant 2026 1 1 10 0 0, EndTime := utcInstant 2026 1 1 11 0 0,
    IdempotencyKey := " k1 " }

/-- A second input with the same (user, trimmed key) and the same
normalized payload as `in1W`. -/
def in2Wsame : CreateInput := { in1W with Title := "t  ", IdempotencyKey := "k1" }

/-- A second input with the same (user, trimmed key) but a different
title. -/
def in2Wdiff : CreateInput := { in1W with Title := "other", IdempotencyKey := "k1" }

/-- A create input whose idempotency key is whitespace only. -/
def inKeyWhite : CreateInput := { in1W with IdempotencyKey := "   " }

/-- A raw idempotency key of 281 bytes whose trimmed form is one byte. -/
def longKeyW : String := String.mk (List.replicate 280 ' ' ++ ['k'])

/-- A create input carrying `longKeyW`. -/
def inKeyLong : CreateInput := { in1W with IdempotencyKey := longKeyW }

/-- A repository stub for series creation that accepts every series. -/
def repoWit : RecurringSeries → Except Err RecurringSeries := fun srs => .ok srs

/-- A base recurrence-rule input: UTC zone, defaults everywhere else. -/
def baseRuleW : RecurrenceRuleInput :=
  { Frequency := "", Interval := 0, ByWeekday := [], Until := none, Count := some 1,
    TimeZone := "UTC" }

/-- A base create-series input: Monday 2026-01-05 09:00–10:00 UTC. -/
def baseInW : CreateRecurringSeriesInput :=
  { UserID := "u1", Title := "t", Notes := "",
    StartTime := utcInstant 2026 1 5 9 0 0, EndTime := utcInstant 2026 1 5 10 0 0,
    Rule := baseRuleW }

/-- Create-series input with no count and an `until` more than 180 days
after the start time. -/
def inLate : CreateRecurringSeriesInput :=
  { baseInW with Rule := { baseRuleW with
      Count := none, Until := some (utcInstant 2026 12 1 0 0 0) } }

/-- Create-series input starting Tuesday with Monday-only weekdays and an
`until` the next day, so the bounded expansion is empty. -/
def inEmpty : CreateRecurringSeriesInput :=
  { baseInW with
    StartTime := utcInstant 2026 1 6 9 0 0
    EndTime := utcInstant 2026 1 6 10 0 0
    Rule := { baseRuleW with
      ByWeekday := [1], Count := none, Until := some (utcInstant 2026 1 7 0 0 0) } }

/-- Create-series input whose `until` precedes the 180-day horizon and whose
count of 5 exceeds the single occurrence available before `until`. -/
def inBefore : CreateRecurringSeriesInput :=
  { baseInW with Rule := { baseRuleW with
      ByWeekday := [1], Count := some 5, Interval := 10000,
      Until := some (utcInstant 2026 1 6 0 0 0) } }

/-- Create-series input with no `until` whose count of 5 exceeds the single
occurrence available inside the 180-day horizon (interval 10000 weeks). -/
def inWithin : CreateRecurringSeriesInput :=
  { baseInW with Rule := { baseRuleW with
      ByWeekday := [1], Count := some 5, Interval := 10000 } }

/-- The single occurrence produced by the bounded expansions of `inBefore`
and `inWithin`. -/
def occSoloW : List RecurringOccurrence :=
  [ { ID := utcInstant 2026 1 5 9 0 0, SeriesID := 0, UserID := "u1", Title := "t",
      Notes := "", StartTime := utcInstant 2026 1 5 9 0 0,
      EndTime := utcInstant 2026 1 5 10 0 0 } ]

/-- A weekly UTC Monday series (count 2) starting 2026-02-02 09:00Z, used
to exercise the conflict check. -/
def seriesC1 : RecurringSeries :=
  { ID := 301, UserID := "u9", Title := "s", Notes := "", Timezone := "UTC",
    DTStart := utcInstant 2026 2 2 9 0 0, DurationSeconds := 3600,
    Frequency := "weekly", Interval := 1, ByWeekday := [1],
    Until := none, Count := some 2 }

/-- A stored appointment overlapping the second occurrence of `seriesC1`. -/
def apptC1 : Appointment :=
  { ID := 44, UserID := "u9", Title := "a", Notes := "",
    StartTime := utcInstant 2026 2 9 9 30 0, EndTime := utcInstant 2026 2 9 10 30 0 }

/-- A calendar holding only `apptC1`. -/
def stC1 : CalendarState := { appointments := [apptC1], series := [], exceptions := [] }

/-- The two occurrences `seriesC1` expands to over the conflict horizon. -/
def occsC1 : List RecurringOccurrence :=
  [ { ID := utcInstant 2026 2 2 9 0 0, SeriesID := 301, UserID := "u9", Title := "s",
      Notes := "", StartTime := utcInstant 2026 2 2 9 0 0,
      EndTime := utcInstant 2026 2 2 10 0 0 },
    { ID := utcInstant 2026 2 9 9 0 0, SeriesID := 301, UserID := "u9", Title := "s",
      Notes := "", StartTime := utcInstant 2026 2 9 9 0 0,
      EndTime := utcInstant 2026 2 9 10 0 0 } ]

/-- A weekly UTC Monday series with count 2 anchored 2026-01-05 09:00Z,
with the loop context of its expansion over [dtstart, 2026-01-26) and the
three-occurrence count-free expansion of the same series. -/
def seriesC4 : RecurringSeries :=
  { ID := 401, UserID := "u4", Title := "w", Notes := "", Timezone := "UTC",
    DTStart := utcInstant 2026 1 5 9 0 0, DurationSeconds := 3600,
    Frequency := "weekly", Interval := 1, ByWeekday := [1],
    Until := none, Count := some 2 }

def ctxC4 : GenCtx :=
  mkGenCtx utcLoc seriesC4 (sortBy (fun a b => a ≤ b) [1])
    (utcInstant 2026 1 5 9 0 0) (utcInstant 2026 1 26 0 0 0)

def occsFC4 : List RecurringOccurrence :=
  [ { ID := utcInstant 2026 1 5 9 0 0, SeriesID := 401, UserID := "u4", Title := "w",
      Notes := "", StartTime := utcInstant 2026 1 5 9 0 0,
      EndTime := utcInstant 2026 1 5 10 0 0 },
    { ID := utcInstant 2026 1 12 9 0 0, SeriesID := 401, UserID := "u4", Title := "w",
      Notes := "", StartTime := utcInstant 2026 1 12 9 0 0,
      EndTime := utcInstant 2026 1 12 10 0 0 },
    { ID := utcInstant 2026 1 19 9 0 0, SeriesID := 401, UserID := "u4", Title := "w",
      Notes := "", StartTime := utcInstant 2026 1 19 9 0 0,
      EndTime := utcInstant 2026 1 19 10 0 0 } ]

/-! ## Theorems -/

/-- Membership in an `insertBy` insertion is membership in the tail or
equality with the inserted element. -/
theorem mem_insertBy {α : Type} {le : α → α → Bool} {x a : α} {l : List α} :
    x ∈ insertBy le a l ↔ x = a ∨ x ∈ l := by
  induction l with
  | nil => simp [insertBy]
  | cons y rest ih =>
    simp only [insertBy]
    split
    · simp
    · simp only [List.mem_cons, ih]
      tauto

/-- `sortBy` preserves membership. -/
theorem mem_sortBy {α : Type} {le : α → α → Bool} {x : α} {l : List α} :
    x ∈ sortBy le l ↔ x ∈ l := by
  induction l with
  | nil => simp [sortBy]
  | cons y rest ih => simp [sortBy, mem_insertBy, ih]

/-- A guarded conflict error fires exactly when its guard holds. -/
theorem ite_conflict_iff {c : Prop} [Decidable c] :
    (if c then (.error Err.conflict : Except Err Unit) else .ok ()) = .error .conflict ↔ c := by
  by_cases h : c <;> simp [h]

theorem unixSecOf_mul_add {u ns : Int} (h0 : 0 ≤ ns) (h1 : ns < nsPerSec) :
    unixSecOf (u * nsPerSec + ns) = u := by
  rw [unixSecOf, add_comm, mul_comm, Int.add_mul_ediv_left ns u (by norm_num [nsPerSec]),
    Int.ediv_eq_zero_of_lt h0 h1, zero_add]

theorem nsecOf_mul_add {u ns : Int} (h0 : 0 ≤ ns) (h1 : ns < nsPerSec) :
    nsecOf (u * nsPerSec + ns) = ns := by
  rw [nsecOf, add_comm, mul_comm, Int.add_mul_emod_self_left, Int.emod_eq_of_lt h0 h1]

theorem nsecOf_nonneg (t : Int) : 0 ≤ nsecOf t :=
  Int.emod_nonneg t (by norm_num [nsPerSec])

theorem nsecOf_lt (t : Int) : nsecOf t < nsPerSec :=
  Int.emod_lt_of_pos t (by norm_num [nsPerSec])

/-- In UTC no wall clock is ever remapped. -/
theorem utc_resolves {todSec : Int} (h0 : 0 ≤ todSec) (h1 : todSec < secPerDay) :
    ∀ day : Int, wallClockResolves utcLoc day todSec := by
  intro day
  have hsec : goDateSec utcLoc day todSec = day * secPerDay + todSec := by
    rw [goDateSec]
    simp [utcLoc, Location.lookup, lookupAux]
  rw [wallClockResolves, goDate, hsec, localTodSec, localSec,
    unixSecOf_mul_add le_rfl (by norm_num [nsPerSec])]
  have hoff : utcLoc.offsetAt (day * secPerDay + todSec) = 0 := by
    simp [Location.offsetAt, utcLoc, Location.lookup, lookupAux]
  rw [hoff, add_zero]
  rw [secPerDay] at h1 ⊢
  omega

theorem weekdayLoop_mem (ctx : GenCtx) (weekMonday weekIndex : Int) :
    ∀ (wds : List Int) (j : Int) (out : List RecurringOccurrence) (o : RecurringOccurrence),
      o ∈ (weekdayLoop ctx weekMonday weekIndex wds j out).2 →
      o ∈ out ∨ CtxShape ctx o := by
  intro wds
  induction wds with
  | nil => intro j out o h; exact .inl h
  | cons wd rest ih =>
    intro j out o h
    rw [weekdayLoop] at h
    by_cases h1 : ctx.candidate weekMonday wd < ctx.dtstartUTC
    · rw [if_pos h1] at h
      exact ih (j + 1) out o h
    · rw [if_neg h1] at h
      by_cases h2 : untilExceeded ctx.untilUTC (ctx.candidate weekMonday wd) = true
      · rw [if_pos h2] at h
        exact .inl h
      · rw [if_neg h2] at h
        by_cases h3 : 0 ≤ ctx.maxCount ∧
            ctx.maxCount ≤ weekIndex * ctx.occPerWeek + j - ctx.skippedInFirstWeek
        · rw [if_pos h3] at h
          exact .inl h
        · rw [if_neg h3] at h
          dsimp only at h
          by_cases h4 : ctx.candidate weekMonday wd < ctx.windowEnd ∧
              ctx.windowStart < ctx.candidate weekMonday wd + ctx.durationNs
          · rw [if_pos h4] at h
            rcases ih (j + 1) (out ++ [ctx.mkOcc (ctx.candidate weekMonday wd)
                (ctx.candidate weekMonday wd + ctx.durationNs)]) o h with hmem | hshape
            · rcases List.mem_append.mp hmem with hmem | hmem
              · exact .inl hmem
              · right
                rcases List.mem_singleton.mp hmem with rfl
                refine ⟨⟨weekMonday + weekdayOffsetFromMonday wd, rfl⟩, ?_, rfl, rfl, rfl, rfl,
                  rfl, rfl, h4.1, h4.2, ?_⟩
                · exact le_of_not_lt h1
                · intro u hu
                  simp only [untilExceeded, hu, decide_eq_true_eq] at h2
                  show ctx.candidate weekMonday wd ≤ u
                  omega
            · exact .inr hshape
          · rw [if_neg h4] at h
            exact ih (j + 1) out o h

theorem weekLoop_mem (ctx : GenCtx) :
    ∀ (fuel : Nat) (weekIndex : Int) (out : List RecurringOccurrence) (o : RecurringOccurrence),
      o ∈ weekLoop ctx fuel weekIndex out → o ∈ out ∨ CtxShape ctx o := by
  intro fuel
  induction fuel with
  | zero => intro w out o h; exact .inl h
  | succ fuel ih =>
    intro w out o h
    rw [weekLoop] at h
    by_cases h1 : ctx.boundary ≤ ctx.startWeekMonday + w * ctx.interval * 7
    · rw [if_pos h1] at h
      exact .inl h
    · rw [if_neg h1] at h
      rcases h2 : weekdayLoop ctx (ctx.startWeekMonday + w * ctx.interval * 7) w ctx.weekdays 0 out with ⟨stop, out2⟩
      rw [h2] at h
      have hsub : o ∈ out2 → o ∈ out ∨ CtxShape ctx o := by
        intro hmem
        have hx := weekdayLoop_mem ctx (ctx.startWeekMonday + w * ctx.interval * 7) w ctx.weekdays 0 out o
        rw [h2] at hx
        exact hx hmem
      cases stop with
      | true => exact hsub h
      | false =>
        rcases ih (w + 1) out2 o h with hmem | hshape
        · exact hsub hmem
        · exact .inr hshape

theorem generate_mem_shape {tzdb : String → Option Location} {series : RecurringSeries}
    {ws we : Int} {occs : List RecurringOccurrence} {loc : Location}
    (hloc : tzdb series.Timezone = some loc)
    (hok : GenerateWeeklyOccurrences tzdb series ws we = .ok occs) :
    ∀ o ∈ occs, GeneratedShape loc series ws we o := by
  intro o ho
  rw [GenerateWeeklyOccurrences] at hok
  split at hok
  · simp at hok
  split at hok
  · simp at hok
  split at hok
  · simp at hok
  next loc2 hloc2 =>
    obtain rfl := Option.some.inj (hloc.symm.trans hloc2)
    split at hok
    · simp at hok
    next wds hw =>
      split at hok
      · simp at hok
      dsimp only at hok
      rw [Except.ok.injEq] at hok
      subst hok
      have hx := weekLoop_mem (mkGenCtx loc series (sortBy (fun a b => a ≤ b) wds) ws we) _ _ _ o ho
      rcases hx with hmem | hshape
      · exact absurd hmem (List.not_mem_nil o)
      · exact hshape


/-- C3 (counterexample): the claim fails as stated for a valid series whose
local time of day falls inside a DST gap.  `seriesGap` is a weekly Sunday
02:30 America/New_York series anchored 2026-03-01 (EST); its second
occurrence targets 2026-03-08, whose 02:30 wall clock does not exist (the
clock jumps 02:00→03:00 EDT), and `time.Date`'s correction resolves it to
01:30 EST — a time of day of 5400 s instead of dtstart's 9000 s. -/
theorem generate_gap_shifts_wallclock :
    (GenerateWeeklyOccurrences sampleTzdb seriesGap (utcInstant 2026 3 1 0 0 0)
        (utcInstant 2026 3 15 0 0 0)).map
        (fun l => l.map (fun o => localTodNs nyLoc o.StartTime)) =
      .ok [9000 * nsPerSec, 5400 * nsPerSec] ∧
    sampleTzdb seriesGap.Timezone = some nyLoc ∧
    localTodNs nyLoc seriesGap.DTStart = 9000 * nsPerSec ∧
    (5400 : Int) * nsPerSec ≠ 9000 * nsPerSec := by decide

/-- C3 (amended): wall-clock stability holds for every emitted occurrence
provided the series's local time of day is never remapped by the zone
(equivalently, never falls in a DST gap): under that hypothesis each
occurrence's start, expressed in the series zone, has exactly dtstart's
local time of day (hour, minute, second and nanosecond combined into
nanoseconds of day). -/
theorem generate_wallclock_stable {tzdb : String → Option Location}
    {series : RecurringSeries} {ws we : Int} {occs : List RecurringOccurrence} {loc : Location}
    (hloc : tzdb series.Timezone = some loc)
    (hok : GenerateWeeklyOccurrences tzdb series ws we = .ok occs)
    (hres : ∀ day, wallClockResolves loc day (localTodSec loc series.DTStart)) :
    ∀ o ∈ occs, localTodNs loc o.StartTime = localTodNs loc series.DTStart := by
  intro o ho
  obtain ⟨⟨d, hd⟩, -⟩ := generate_mem_shape hloc hok o ho
  have hns0 : 0 ≤ nsecOf series.DTStart := nsecOf_nonneg _
  have hns1 : nsecOf series.DTStart < nsPerSec := nsecOf_lt _
  rw [goDate] at hd
  have h1 : unixSecOf o.StartTime = goDateSec loc d (localTodSec loc series.DTStart) := by
    rw [hd]; exact unixSecOf_mul_add hns0 hns1
  have h2 : nsecOf o.StartTime = nsecOf series.DTStart := by
    rw [hd]; exact nsecOf_mul_add hns0 hns1
  have h3 := hres d
  rw [wallClockResolves, goDate] at h3
  have h5 : unixSecOf (goDateSec loc d (localTodSec loc series.DTStart) * nsPerSec + 0) =
      goDateSec loc d (localTodSec loc series.DTStart) :=
    unixSecOf_mul_add le_rfl (by norm_num [nsPerSec])
  have h4 : localTodSec loc o.StartTime = localTodSec loc series.DTStart := by
    rw [localTodSec, localSec, h1]
    rw [localTodSec, localSec, h5] at h3
    exact h3
  rw [localTodNs, localTodNs, h4, h2]

/-- Witness for the amended C3 at a concrete input: the weekly Monday
09:00Z UTC series, whose time of day is resolved faithfully on every day. -/
theorem generate_wallclock_stable_witness :
    sampleTzdb seriesUtcMon.Timezone = some utcLoc ∧
    GenerateWeeklyOccurrences sampleTzdb seriesUtcMon (utcInstant 2026 1 5 0 0 0)
      (utcInstant 2026 1 19 0 0 0) = .ok occsUtcMon ∧
    (∀ o ∈ occsUtcMon, localTodNs utcLoc o.StartTime = localTodNs utcLoc seriesUtcMon.DTStart) :=
  ⟨by decide, by decide,
    @generate_wallclock_stable sampleTzdb seriesUtcMon (utcInstant 2026 1 5 0 0 0)
      (utcInstant 2026 1 19 0 0 0) occsUtcMon utcLoc (by decide) (by decide)
      (utc_resolves (by decide) (by decide))⟩

theorem find?_reverse_unique {l : List RecurringException} {key : Int}
    (h : (l.map (fun e => e.OccurrenceStart)).Nodup) :
    l.reverse.find? (fun e => e.OccurrenceStart = key) =
      l.find? (fun e => e.OccurrenceStart = key) := by
  have hinj : ∀ a ∈ l, ∀ b ∈ l, a.OccurrenceStart = b.OccurrenceStart → a = b :=
    List.inj_on_of_nodup_map h
  cases hr : l.find? (fun e => e.OccurrenceStart = key) with
  | none =>
    rw [List.find?_eq_none] at hr ⊢
    intro x hx
    exact hr x (List.mem_reverse.mp hx)
  | some y =>
    have hy := List.mem_of_find?_eq_some hr
    have hpy := List.find?_some hr
    cases hr2 : l.reverse.find? (fun e => e.OccurrenceStart = key) with
    | none =>
      rw [List.find?_eq_none] at hr2
      exact absurd hpy (hr2 y (List.mem_reverse.mpr hy))
    | some z =>
      have hz := List.mem_reverse.mp (List.mem_of_find?_eq_some hr2)
      have hpz := List.find?_some hr2
      simp only [decide_eq_true_eq] at hpy hpz
      rw [hinj z hz y hy (hpz.trans hpy.symm)]

theorem applyLoop_eq_filterMap (exs : List RecurringException) (ws we : Int)
    (hkeys : (exs.map (fun e => e.OccurrenceStart)).Nodup) :
    ∀ occs, applyExceptionsLoop exs ws we occs =
      occs.filterMap (specMergeException exs ws we) := by
  intro occs
  induction occs with
  | nil => rfl
  | cons o rest ih =>
    rw [applyExceptionsLoop]
    have hex : exByStart exs o.StartTime =
        exs.find? (fun e => e.OccurrenceStart = o.StartTime) := by
      rw [exByStart]; exact find?_reverse_unique hkeys
    rw [List.filterMap_cons, hex]
    cases hf : exs.find? (fun e => e.OccurrenceStart = o.StartTime) with
    | none =>
      simp only [specMergeException, hf]
      rw [ih]
    | some ex =>
      simp only [specMergeException, hf]
      by_cases hskip : ex.Kind = "skip"
      · rw [if_pos hskip, if_pos hskip, ih]
      · rw [if_neg hskip, if_neg hskip]
        dsimp only
        rcases ex with ⟨xid, xsid, xostart, xkind, xos, xoe, xot, xon, xca, xua⟩
        cases xos <;> cases xoe <;> cases xot <;> cases xon <;>
          (dsimp only [Option.getD]
           split_ifs with hwin <;> (dsimp only; rw [ih]))

theorem applyRecurringExceptions_eq_filterMap (occs : List RecurringOccurrence)
    (exs : List RecurringException) (ws we : Int)
    (hkeys : (exs.map (fun e => e.OccurrenceStart)).Nodup) :
    applyRecurringExceptions occs exs ws we =
      occs.filterMap (specMergeException exs ws we) := by
  rw [applyRecurringExceptions]
  by_cases hlen : exs.length = 0
  · rw [if_pos hlen]
    obtain rfl := List.length_eq_zero.mp hlen
    induction occs with
    | nil => rfl
    | cons o rest ih =>
      rw [List.filterMap_cons]
      simp only [specMergeException, List.find?_nil]
      rw [← ih]
  · rw [if_neg hlen]
    exact applyLoop_eq_filterMap exs ws we hkeys occs

/-- C5: for an exception set with pairwise-distinct occurrence_start keys
(the uniqueness the schema enforces per series), `applyRecurringExceptions`
is exactly the order-preserving per-occurrence merge of the spec: each
occurrence is matched by nanosecond-identical occurrence_start only
(near-miss instants never match, so unmatched occurrences pass through
unchanged in order), a matching skip drops exactly that occurrence, and a
matching override replaces start/end/title/notes by the override's present
fields, keeps originals for absent fields, and keeps the result iff the
mutated half-open interval still intersects the window. -/
theorem applyRecurringExceptions_spec (occs : List RecurringOccurrence)
    (exs : List RecurringException) (ws we : Int)
    (hkeys : (exs.map (fun e => e.OccurrenceStart)).Nodup) :
    applyRecurringExceptions occs exs ws we =
      occs.filterMap (specMergeException exs ws we) :=
  applyRecurringExceptions_eq_filterMap occs exs ws we hkeys

/-- Witness for C5 at a concrete input: two occurrences, a skip and a
start-moving override. -/
theorem applyRecurringExceptions_spec_witness :
    (exsWitness.map (fun e => e.OccurrenceStart)).Nodup ∧
    applyRecurringExceptions occsUtcMon exsWitness (utcInstant 2026 1 5 0 0 0)
        (utcInstant 2026 1 19 0 0 0) =
      occsUtcMon.filterMap (specMergeException exsWitness (utcInstant 2026 1 5 0 0 0)
        (utcInstant 2026 1 19 0 0 0)) :=
  ⟨by decide, applyRecurringExceptions_spec occsUtcMon exsWitness _ _ (by decide)⟩

/-- C9: the exception merger never changes an occurrence id.  Every merged
occurrence keeps the id of the engine-emitted occurrence it was derived
from, that id equals the engine occurrence's start nanosecond (the decimal
string the engine formats), and therefore an override that moves the start
yields an occurrence whose id differs from the nanosecond key of its
reported start — the original start remains the stable key shared with the
exception matcher. -/
theorem override_preserves_occurrence_id {tzdb : String → Option Location}
    {series : RecurringSeries} {ws we : Int} {occs : List RecurringOccurrence} {loc : Location}
    (hloc : tzdb series.Timezone = some loc)
    (hok : GenerateWeeklyOccurrences tzdb series ws we = .ok occs)
    (exs : List RecurringException)
    (hkeys : (exs.map (fun e => e.OccurrenceStart)).Nodup) :
    ∀ r ∈ applyRecurringExceptions occs exs ws we,
      ∃ o ∈ occs, r.ID = o.ID ∧ o.ID = o.StartTime ∧
        (r.StartTime ≠ o.StartTime → r.ID ≠ r.StartTime) := by
  intro r hr
  rw [applyRecurringExceptions_eq_filterMap occs exs ws we hkeys] at hr
  obtain ⟨o, ho, hmerge⟩ := List.mem_filterMap.mp hr
  obtain ⟨-, -, hid, -⟩ := generate_mem_shape hloc hok o ho
  refine ⟨o, ho, ?_, hid, ?_⟩ <;>
  · cases hf : exs.find? (fun e => e.OccurrenceStart = o.StartTime) with
    | none =>
      simp only [specMergeException, hf] at hmerge
      obtain rfl := Option.some.inj hmerge
      first
        | rfl
        | (intro hne _; exact hne rfl)
    | some ex =>
      simp only [specMergeException, hf] at hmerge
      by_cases hskip : ex.Kind = "skip"
      · rw [if_pos hskip] at hmerge; exact absurd hmerge (by simp)
      · rw [if_neg hskip] at hmerge
        dsimp only at hmerge
        by_cases hwin : ex.OverrideStart.getD o.StartTime < we ∧
            ws < ex.OverrideEnd.getD o.EndTime
        · rw [if_pos hwin] at hmerge
          obtain rfl := Option.some.inj hmerge
          first
            | rfl
            | (intro hne heq
               apply hne
               have h1 : o.ID = ex.OverrideStart.getD o.StartTime := heq
               rw [hid] at h1
               exact h1.symm)
        · rw [if_neg hwin] at hmerge; exact absurd hmerge (by simp)

/-- Witness for C9 at a concrete input: the override moving the Jan 12
occurrence by 30 minutes keeps its original id. -/
theorem override_preserves_occurrence_id_witness :
    (exsWitness.map (fun e => e.OccurrenceStart)).Nodup ∧
    (∀ r ∈ applyRecurringExceptions occsUtcMon exsWitness (utcInstant 2026 1 5 0 0 0)
        (utcInstant 2026 1 19 0 0 0),
      ∃ o ∈ occsUtcMon, r.ID = o.ID ∧ o.ID = o.StartTime ∧
        (r.StartTime ≠ o.StartTime → r.ID ≠ r.StartTime)) :=
  ⟨by decide,
    @override_preserves_occurrence_id sampleTzdb seriesUtcMon (utcInstant 2026 1 5 0 0 0)
      (utcInstant 2026 1 19 0 0 0) occsUtcMon utcLoc (by decide) (by decide)
      exsWitness (by decide)⟩

/-- C6: expanding scenario S5 over [2026-03-01T00:00Z, 2026-03-22T00:00Z)
through `ListOccurrences` yields exactly the three occurrences of
2026-03-01, 2026-03-08 and 2026-03-15, and each start instant's local hour
in America/New_York is 9 despite the DST transition of 2026-03-08 (the UTC
starts shift from 14:00Z to 13:00Z). -/
theorem listOccurrences_dst_scenario :
    ((listOccurrencesRepo sampleTzdb stateS5 "u1" (utcInstant 2026 3 1 0 0 0)
        (utcInstant 2026 3 22 0 0 0)).map (fun occs =>
      (occs.map (fun o => o.StartTime), occs.map (fun o => localHour nyLoc o.StartTime)))) =
    .ok ([utcInstant 2026 3 1 14 0 0, utcInstant 2026 3 8 13 0 0, utcInstant 2026 3 15 13 0 0],
      [9, 9, 9]) := by decide

theorem appointment_eta (appt : Appointment) :
    ({ ID := appt.ID, UserID := appt.UserID, Title := appt.Title, Notes := appt.Notes,
       StartTime := appt.StartTime, EndTime := appt.EndTime,
       CreatedAt := appt.CreatedAt, UpdatedAt := appt.UpdatedAt } : Appointment) = appt := rfl

theorem txCreate_ok {now : Int} {freshId : Nat} {st : CalendarState} {appt : Appointment}
    (h : insertSignal st.appointments (beforeInsertAppointment now freshId appt) = .ok) :
    txCreateAppointment now freshId st appt =
      (.ok { appt with ID := (beforeInsertAppointment now freshId appt).ID },
       { st with appointments := st.appointments ++ [beforeInsertAppointment now freshId appt] }) := by
  rw [txCreateAppointment, appointment_eta]
  split
  next heq => rw [h] at heq; exact absurd heq (by simp)
  next heq => rw [h] at heq; exact absurd heq (by simp)
  next heq => rw [h] at heq; exact absurd heq (by simp)
  next => rfl

theorem txCreate_replay {now : Int} {freshId : Nat} {st : CalendarState} {appt existing : Appointment}
    (hsig : insertSignal st.appointments (beforeInsertAppointment now freshId appt) = .uniqueViolation)
    (hfind : st.appointments.find?
      (fun r => r.ID = (beforeInsertAppointment now freshId appt).ID) = some existing)
    (hfields : ¬(existing.UserID ≠ appt.UserID ∨ existing.Title ≠ appt.Title ∨
      existing.Notes ≠ appt.Notes ∨ existing.StartTime ≠ appt.StartTime ∨
      existing.EndTime ≠ appt.EndTime)) :
    txCreateAppointment now freshId st appt = (.ok existing, st) := by
  rw [txCreateAppointment, appointment_eta]
  split
  next heq => rw [hsig] at heq; exact absurd heq (by simp)
  next heq => rw [hsig] at heq; exact absurd heq (by simp)
  next heq =>
    rw [hfind]
    dsimp only
    rw [if_neg hfields]
  next heq => rw [hsig] at heq; exact absurd heq (by simp)

theorem txCreate_idem_conflict {now : Int} {freshId : Nat} {st : CalendarState}
    {appt existing : Appointment}
    (hsig : insertSignal st.appointments (beforeInsertAppointment now freshId appt) = .uniqueViolation)
    (hfind : st.appointments.find?
      (fun r => r.ID = (beforeInsertAppointment now freshId appt).ID) = some existing)
    (hfields : existing.UserID ≠ appt.UserID ∨ existing.Title ≠ appt.Title ∨
      existing.Notes ≠ appt.Notes ∨ existing.StartTime ≠ appt.StartTime ∨
      existing.EndTime ≠ appt.EndTime) :
    txCreateAppointment now freshId st appt = (.error .idempotencyConflict, st) := by
  rw [txCreateAppointment, appointment_eta]
  split
  next heq => rw [hsig] at heq; exact absurd heq (by simp)
  next heq => rw [hsig] at heq; exact absurd heq (by simp)
  next heq =>
    rw [hfind]
    dsimp only
    rw [if_pos hfields]
  next heq => rw [hsig] at heq; exact absurd heq (by simp)

theorem serviceCreate_keyed (newSHA1 : String → Nat) (now : Int) (fid : Nat)
    (st : CalendarState) (input : CreateInput)
    (htitle : goTrimSpace input.Title ≠ "") (huser : input.UserID ≠ "")
    (hse : input.StartTime < input.EndTime)
    (hdur : input.EndTime - input.StartTime ≤ hours24Ns)
    (hkey : goTrimSpace input.IdempotencyKey ≠ "")
    (hklen : (goTrimSpace input.IdempotencyKey).utf8ByteSize ≤ 256) :
    serviceCreate newSHA1 now fid st input =
      txCreateAppointment now fid st (serviceApptKeyed newSHA1 input) := by
  rw [serviceCreate]
  rw [if_neg htitle, if_neg huser]
  rw [if_neg (show ¬(input.EndTime = input.StartTime ∨ input.EndTime < input.StartTime) by omega)]
  rw [if_neg (show ¬(hours24Ns < input.EndTime - input.StartTime) by omega)]
  dsimp only
  rw [if_pos hkey]
  rw [if_neg (by omega)]
  rfl

theorem serviceCreate_unkeyed (newSHA1 : String → Nat) (now : Int) (fid : Nat)
    (st : CalendarState) (input : CreateInput)
    (htitle : goTrimSpace input.Title ≠ "") (huser : input.UserID ≠ "")
    (hse : input.StartTime < input.EndTime)
    (hdur : input.EndTime - input.StartTime ≤ hours24Ns)
    (hkey : goTrimSpace input.IdempotencyKey = "") :
    serviceCreate newSHA1 now fid st input =
      txCreateAppointment now fid st (serviceApptPlain input) := by
  rw [serviceCreate]
  rw [if_neg htitle, if_neg huser]
  rw [if_neg (show ¬(input.EndTime = input.StartTime ∨ input.EndTime < input.StartTime) by omega)]
  rw [if_neg (show ¬(hours24Ns < input.EndTime - input.StartTime) by omega)]
  dsimp only
  rw [if_neg (show ¬(goTrimSpace input.IdempotencyKey ≠ "") from not_not.mpr hkey)]
  rfl

theorem insertSignal_ok_elim {rows : List Appointment} {m : Appointment}
    (h : insertSignal rows m = .ok) :
    rows.any (fun r => r.ID = m.ID) = false := by
  rw [insertSignal] at h
  split_ifs at h
  simp_all

theorem find?_append_of_none {α} {p : α → Bool} {l1 : List α} (l2 : List α)
    (h : l1.find? p = none) : (l1 ++ l2).find? p = l2.find? p := by
  induction l1 with
  | nil => rfl
  | cons x rest ih =>
    rw [List.find?_cons] at h
    rw [List.cons_append, List.find?_cons]
    cases hp : p x with
    | true => rw [hp] at h; simp at h
    | false => rw [hp] at h; exact ih h

/-- C8: on a successful fresh insert the store's CreateAppointment returns
the caller-supplied appointment with only the ID field replaced by the
inserted row's id; the created/updated instants the insert hook stamped on
the stored row are not copied back (an input with zero timestamps is
returned with zero timestamps while the stored row carries `now`), whereas
the idempotent-replay branch returns the stored row itself with its stored
timestamps. -/
theorem createAppointment_timestamp_frame (now : Int) (freshId : Nat)
    (st : CalendarState) (appt existing : Appointment) :
    (insertSignal st.appointments (beforeInsertAppointment now freshId appt) = .ok →
      txCreateAppointment now freshId st appt =
        (.ok { appt with ID := (beforeInsertAppointment now freshId appt).ID },
         { st with appointments := st.appointments ++ [beforeInsertAppointment now freshId appt] }) ∧
      ({ appt with ID := (beforeInsertAppointment now freshId appt).ID } : Appointment).CreatedAt
        = appt.CreatedAt ∧
      ({ appt with ID := (beforeInsertAppointment now freshId appt).ID } : Appointment).UpdatedAt
        = appt.UpdatedAt ∧
      (appt.CreatedAt = 0 → (beforeInsertAppointment now freshId appt).CreatedAt = now) ∧
      (appt.UpdatedAt = 0 → (beforeInsertAppointment now freshId appt).UpdatedAt = now)) ∧
    (insertSignal st.appointments (beforeInsertAppointment now freshId appt) = .uniqueViolation →
      st.appointments.find?
          (fun r => r.ID = (beforeInsertAppointment now freshId appt).ID) = some existing →
      ¬(existing.UserID ≠ appt.UserID ∨ existing.Title ≠ appt.Title ∨
        existing.Notes ≠ appt.Notes ∨ existing.StartTime ≠ appt.StartTime ∨
        existing.EndTime ≠ appt.EndTime) →
      txCreateAppointment now freshId st appt = (.ok existing, st)) := by
  constructor
  · intro hsig
    refine ⟨txCreate_ok hsig, rfl, rfl, ?_, ?_⟩
    · intro hz; simp [beforeInsertAppointment, hz]
    · intro hz; simp [beforeInsertAppointment, hz]
  · intro hsig hfind hfields
    exact txCreate_replay hsig hfind hfields

/-- Witness for C8: a fresh insert of a zero-timestamp appointment at
`now = 7`, and an identical-payload replay against the resulting state. -/
theorem createAppointment_timestamp_frame_witness :
    (txCreateAppointment 7 42 emptyCalendar apptC8 =
        (.ok { apptC8 with ID := (beforeInsertAppointment 7 42 apptC8).ID },
         { emptyCalendar with appointments :=
            emptyCalendar.appointments ++ [beforeInsertAppointment 7 42 apptC8] }) ∧
      ({ apptC8 with ID := (beforeInsertAppointment 7 42 apptC8).ID } : Appointment).CreatedAt
        = apptC8.CreatedAt ∧
      ({ apptC8 with ID := (beforeInsertAppointment 7 42 apptC8).ID } : Appointment).UpdatedAt
        = apptC8.UpdatedAt ∧
      (apptC8.CreatedAt = 0 → (beforeInsertAppointment 7 42 apptC8).CreatedAt = 7) ∧
      (apptC8.UpdatedAt = 0 → (beforeInsertAppointment 7 42 apptC8).UpdatedAt = 7)) ∧
    txCreateAppointment 9 43 stC8 { apptC8 with ID := 42 } =
      (.ok (beforeInsertAppointment 7 42 apptC8), stC8) :=
  ⟨(createAppointment_timestamp_frame 7 42 emptyCalendar apptC8 apptC8).1 (by decide),
   (createAppointment_timestamp_frame 9 43 stC8 { apptC8 with ID := 42 }
      (beforeInsertAppointment 7 42 apptC8)).2 (by decide) (by decide) (by decide)⟩

/-- C2: with equal (user, trimmed key) the service derives the same
128-bit id — the name-based digest of
`schedula:create_appointment:<user>:<key>` — for both calls; the first
call inserts one row and returns it; a replay whose normalized payload
(user, title, notes, start, end) matches loads and returns that stored row
with the state unchanged (no second row); a replay whose payload differs
returns IdempotencyConflictError and also leaves the state unchanged. -/
theorem createAppointment_idempotency (newSHA1 : String → Nat) (now1 now2 : Int) (fid1 fid2 : Nat)
    (st : CalendarState) (in1 in2 : CreateInput)
    (htitle1 : goTrimSpace in1.Title ≠ "") (huser1 : in1.UserID ≠ "")
    (hse1 : in1.StartTime < in1.EndTime) (hdur1 : in1.EndTime - in1.StartTime ≤ hours24Ns)
    (htitle2 : goTrimSpace in2.Title ≠ "")
    (hse2 : in2.StartTime < in2.EndTime) (hdur2 : in2.EndTime - in2.StartTime ≤ hours24Ns)
    (huser : in2.UserID = in1.UserID)
    (hkey : goTrimSpace in2.IdempotencyKey = goTrimSpace in1.IdempotencyKey)
    (hkeyne : goTrimSpace in1.IdempotencyKey ≠ "")
    (hklen : (goTrimSpace in1.IdempotencyKey).utf8ByteSize ≤ 256)
    (hsha : newSHA1 (idempotencyName in1.UserID (goTrimSpace in1.IdempotencyKey)) ≠ 0)
    (hfresh : insertSignal st.appointments
      (beforeInsertAppointment now1 fid1 (serviceApptKeyed newSHA1 in1)) = .ok) :
    (serviceApptKeyed newSHA1 in2).ID = (serviceApptKeyed newSHA1 in1).ID ∧
    serviceCreate newSHA1 now1 fid1 st in1 =
      (.ok (serviceApptKeyed newSHA1 in1),
       { st with appointments := st.appointments ++
          [beforeInsertAppointment now1 fid1 (serviceApptKeyed newSHA1 in1)] }) ∧
    (goTrimSpace in2.Title = goTrimSpace in1.Title ∧ in2.Notes = in1.Notes ∧
        in2.StartTime = in1.StartTime ∧ in2.EndTime = in1.EndTime →
      serviceCreate newSHA1 now2 fid2
          { st with appointments := st.appointments ++
            [beforeInsertAppointment now1 fid1 (serviceApptKeyed newSHA1 in1)] } in2 =
        (.ok (beforeInsertAppointment now1 fid1 (serviceApptKeyed newSHA1 in1)),
         { st with appointments := st.appointments ++
            [beforeInsertAppointment now1 fid1 (serviceApptKeyed newSHA1 in1)] })) ∧
    (¬(goTrimSpace in2.Title = goTrimSpace in1.Title ∧ in2.Notes = in1.Notes ∧
        in2.StartTime = in1.StartTime ∧ in2.EndTime = in1.EndTime) →
      serviceCreate newSHA1 now2 fid2
          { st with appointments := st.appointments ++
            [beforeInsertAppointment now1 fid1 (serviceApptKeyed newSHA1 in1)] } in2 =
        (.error .idempotencyConflict,
         { st with appointments := st.appointments ++
            [beforeInsertAppointment now1 fid1 (serviceApptKeyed newSHA1 in1)] })) := by
  have hids : (serviceApptKeyed newSHA1 in2).ID = (serviceApptKeyed newSHA1 in1).ID := by
    show newSHA1 (idempotencyName in2.UserID (goTrimSpace in2.IdempotencyKey)) =
      newSHA1 (idempotencyName in1.UserID (goTrimSpace in1.IdempotencyKey))
    rw [huser, hkey]
  have hmid : (beforeInsertAppointment now1 fid1 (serviceApptKeyed newSHA1 in1)).ID =
      (serviceApptKeyed newSHA1 in1).ID := by
    show (if (serviceApptKeyed newSHA1 in1).ID = 0 then fid1
      else (serviceApptKeyed newSHA1 in1).ID) = (serviceApptKeyed newSHA1 in1).ID
    exact if_neg hsha
  have hm2id : (beforeInsertAppointment now2 fid2 (serviceApptKeyed newSHA1 in2)).ID =
      (serviceApptKeyed newSHA1 in1).ID := by
    show (if (serviceApptKeyed newSHA1 in2).ID = 0 then fid2
      else (serviceApptKeyed newSHA1 in2).ID) = (serviceApptKeyed newSHA1 in1).ID
    rw [hids]
    exact if_neg hsha
  have huser2 : in2.UserID ≠ "" := by rw [huser]; exact huser1
  have hkeyne2 : goTrimSpace in2.IdempotencyKey ≠ "" := by rw [hkey]; exact hkeyne
  have hklen2 : (goTrimSpace in2.IdempotencyKey).utf8ByteSize ≤ 256 := by rw [hkey]; exact hklen
  have hanyfalse := insertSignal_ok_elim hfresh
  rw [hmid] at hanyfalse
  have hchk2 : ¬((beforeInsertAppointment now2 fid2 (serviceApptKeyed newSHA1 in2)).EndTime ≤
      (beforeInsertAppointment now2 fid2 (serviceApptKeyed newSHA1 in2)).StartTime) := by
    show ¬(in2.EndTime ≤ in2.StartTime)
    omega
  have hsig2 : insertSignal
      (st.appointments ++ [beforeInsertAppointment now1 fid1 (serviceApptKeyed newSHA1 in1)])
      (beforeInsertAppointment now2 fid2 (serviceApptKeyed newSHA1 in2)) = .uniqueViolation := by
    rw [insertSignal, if_neg hchk2, if_pos]
    rw [List.any_eq_true]
    refine ⟨beforeInsertAppointment now1 fid1 (serviceApptKeyed newSHA1 in1), ?_, ?_⟩
    · exact List.mem_append_right _ (List.mem_singleton.mpr rfl)
    · rw [hm2id, hmid]; simp
  have hfind2 : (st.appointments ++
        [beforeInsertAppointment now1 fid1 (serviceApptKeyed newSHA1 in1)]).find?
      (fun r => r.ID = (beforeInsertAppointment now2 fid2 (serviceApptKeyed newSHA1 in2)).ID) =
      some (beforeInsertAppointment now1 fid1 (serviceApptKeyed newSHA1 in1)) := by
    rw [find?_append_of_none]
    · have hdec : (beforeInsertAppointment now1 fid1 (serviceApptKeyed newSHA1 in1)).ID =
          (beforeInsertAppointment now2 fid2 (serviceApptKeyed newSHA1 in2)).ID := by
        rw [hm2id, hmid]
      rw [List.find?_cons, decide_eq_true hdec]
    · rw [List.find?_eq_none]
      intro x hx
      have hxf := List.any_eq_false.mp hanyfalse x hx
      rw [hm2id]
      simpa using hxf
  refine ⟨hids, ?_, ?_, ?_⟩
  · rw [serviceCreate_keyed newSHA1 now1 fid1 st in1 htitle1 huser1 hse1 hdur1 hkeyne hklen]
    rw [txCreate_ok hfresh]
    rw [hmid]
  · intro hpay
    rw [serviceCreate_keyed newSHA1 now2 fid2 _ in2 htitle2 huser2 hse2 hdur2 hkeyne2 hklen2]
    refine txCreate_replay hsig2 hfind2 ?_
    intro hcontra
    rcases hcontra with h | h | h | h | h
    · exact h (show in1.UserID = in2.UserID from huser.symm)
    · exact h (show goTrimSpace in1.Title = goTrimSpace in2.Title from hpay.1.symm)
    · exact h (show in1.Notes = in2.Notes from hpay.2.1.symm)
    · exact h (show in1.StartTime = in2.StartTime from hpay.2.2.1.symm)
    · exact h (show in1.EndTime = in2.EndTime from hpay.2.2.2.symm)
  · intro hdiff
    rw [serviceCreate_keyed newSHA1 now2 fid2 _ in2 htitle2 huser2 hse2 hdur2 hkeyne2 hklen2]
    refine txCreate_idem_conflict hsig2 hfind2 ?_
    have hd : goTrimSpace in2.Title ≠ goTrimSpace in1.Title ∨ in2.Notes ≠ in1.Notes ∨
        in2.StartTime ≠ in1.StartTime ∨ in2.EndTime ≠ in1.EndTime := by tauto
    rcases hd with h | h | h | h
    · exact Or.inr (Or.inl (show goTrimSpace in1.Title ≠ goTrimSpace in2.Title from
        fun heq => h heq.symm))
    · exact Or.inr (Or.inr (Or.inl (show in1.Notes ≠ in2.Notes from fun heq => h heq.symm)))
    · exact Or.inr (Or.inr (Or.inr (Or.inl (show in1.StartTime ≠ in2.StartTime from
        fun heq => h heq.symm))))
    · exact Or.inr (Or.inr (Or.inr (Or.inr (show in1.EndTime ≠ in2.EndTime from
        fun heq => h heq.symm))))

/-- Witness for C2: an insert with key " k1 ", one identical-payload replay
and one replay with a different title. -/
theorem createAppointment_idempotency_witness :
    (serviceCreate shaW 11 92 { emptyCalendar with appointments := emptyCalendar.appointments ++
        [beforeInsertAppointment 7 91 (serviceApptKeyed shaW in1W)] } in2Wsame =
      (.ok (beforeInsertAppointment 7 91 (serviceApptKeyed shaW in1W)),
       { emptyCalendar with appointments := emptyCalendar.appointments ++
          [beforeInsertAppointment 7 91 (serviceApptKeyed shaW in1W)] })) ∧
    (serviceCreate shaW 11 92 { emptyCalendar with appointments := emptyCalendar.appointments ++
        [beforeInsertAppointment 7 91 (serviceApptKeyed shaW in1W)] } in2Wdiff =
      (.error .idempotencyConflict,
       { emptyCalendar with appointments := emptyCalendar.appointments ++
          [beforeInsertAppointment 7 91 (serviceApptKeyed shaW in1W)] })) :=
  ⟨(createAppointment_idempotency shaW 7 11 91 92 emptyCalendar in1W in2Wsame
      (by decide) (by decide) (by decide) (by decide) (by decide) (by decide) (by decide)
      (by decide) (by decide) (by decide) (by decide) (by decide) (by decide)).2.2.1
      ⟨by decide, by decide, by decide, by decide⟩,
   (createAppointment_idempotency shaW 7 11 91 92 emptyCalendar in1W in2Wdiff
      (by decide) (by decide) (by decide) (by decide) (by decide) (by decide) (by decide)
      (by decide) (by decide) (by decide) (by decide) (by decide) (by decide)).2.2.2
      (by decide)⟩

/-- C10: the idempotency key is trimmed before any other handling — a
whitespace-only key is treated exactly as an absent key (no deterministic
id is derived; the insert hook assigns the fresh time-ordered id), and the
256-byte limit applies to the trimmed key, so any raw key whose trimmed
form is at most 256 bytes reaches the store regardless of raw length. -/
theorem idempotencyKey_trimmed_first (newSHA1 : String → Nat) (now : Int) (fid : Nat)
    (st : CalendarState) (input : CreateInput) :
    (goTrimSpace input.IdempotencyKey = "" →
      serviceCreate newSHA1 now fid st input =
        serviceCreate newSHA1 now fid st { input with IdempotencyKey := "" }) ∧
    (goTrimSpace input.IdempotencyKey = "" →
      goTrimSpace input.Title ≠ "" → input.UserID ≠ "" →
      input.StartTime < input.EndTime → input.EndTime - input.StartTime ≤ hours24Ns →
      insertSignal st.appointments (beforeInsertAppointment now fid (serviceApptPlain input)) = .ok →
      serviceCreate newSHA1 now fid st input =
        (.ok { serviceApptPlain input with ID := fid },
         { st with appointments := st.appointments ++
            [beforeInsertAppointment now fid (serviceApptPlain input)] }) ∧
      (beforeInsertAppointment now fid (serviceApptPlain input)).ID = fid) ∧
    (goTrimSpace input.IdempotencyKey ≠ "" →
      (goTrimSpace input.IdempotencyKey).utf8ByteSize ≤ 256 →
      goTrimSpace input.Title ≠ "" → input.UserID ≠ "" →
      input.StartTime < input.EndTime → input.EndTime - input.StartTime ≤ hours24Ns →
      serviceCreate newSHA1 now fid st input =
        txCreateAppointment now fid st (serviceApptKeyed newSHA1 input)) := by
  have hplainid : (beforeInsertAppointment now fid (serviceApptPlain input)).ID = fid := by
    show (if (serviceApptPlain input).ID = 0 then fid else (serviceApptPlain input).ID) = fid
    exact if_pos rfl
  refine ⟨?_, ?_, ?_⟩
  · intro hkey
    rw [serviceCreate, serviceCreate, hkey]
    rfl
  · intro hkey htitle huser hse hdur hfresh
    refine ⟨?_, hplainid⟩
    rw [serviceCreate_unkeyed newSHA1 now fid st input htitle huser hse hdur hkey]
    rw [txCreate_ok hfresh, hplainid]
  · intro hkey hklen htitle huser hse hdur
    exact serviceCreate_keyed newSHA1 now fid st input htitle huser hse hdur hkey hklen

set_option maxRecDepth 40000 in
/-- Witness for C10: a whitespace-only key behaves as absent and gets the
fresh id 55; a 281-byte raw key with a 1-byte trimmed form is accepted. -/
theorem idempotencyKey_trimmed_first_witness :
    (serviceCreate shaW 7 55 emptyCalendar inKeyWhite =
      serviceCreate shaW 7 55 emptyCalendar { inKeyWhite with IdempotencyKey := "" }) ∧
    (serviceCreate shaW 7 55 emptyCalendar inKeyWhite =
        (.ok { serviceApptPlain inKeyWhite with ID := 55 },
         { emptyCalendar with appointments := emptyCalendar.appointments ++
            [beforeInsertAppointment 7 55 (serviceApptPlain inKeyWhite)] }) ∧
      (beforeInsertAppointment 7 55 (serviceApptPlain inKeyWhite)).ID = 55) ∧
    (256 < inKeyLong.IdempotencyKey.utf8ByteSize ∧
      serviceCreate shaW 7 55 emptyCalendar inKeyLong =
        txCreateAppointment 7 55 emptyCalendar (serviceApptKeyed shaW inKeyLong)) :=
  ⟨(idempotencyKey_trimmed_first shaW 7 55 emptyCalendar inKeyWhite).1 (by decide),
   (idempotencyKey_trimmed_first shaW 7 55 emptyCalendar inKeyWhite).2.1
     (by decide) (by decide) (by decide) (by decide) (by decide) (by decide),
   ⟨by decide,
    (idempotencyKey_trimmed_first shaW 7 55 emptyCalendar inKeyLong).2.2
      (by decide) (by decide) (by decide) (by decide) (by decide) (by decide)⟩⟩


/-- C7: For every create-series input passing the basic field checks
(nonempty trimmed title, user id, weekly frequency, known time zone,
positive duration of at most 24 hours, normalizable weekdays, until not
before start, count at least 1), `serviceCreateRecurringSeries` enforces
the 180-day horizon: (i) if count and until are both absent it rejects with
"until or count is required"; (ii) if count is absent and until is more
than 180 days after start it rejects with "until must be within 180 days
of start_time"; (iii) otherwise it expands the rule once up to
min(start + 180 days, until) and rejects an empty expansion with
"recurrence rule produces no occurrences", and a count exceeding the
expansion size with "count exceeds occurrences available before until"
when until precedes the horizon, or "count exceeds occurrences available
within 180 days of start_time" when until is absent or at/after the
horizon. -/
theorem createRecurringSeries_horizon_validation (tzdb : String → Option Location)
    (repoCreate : RecurringSeries → Except Err RecurringSeries)
    (input : CreateRecurringSeriesInput) (loc : Location) (normalized : List Int)
    (htitle : goTrimSpace input.Title ≠ "") (huser : input.UserID ≠ "")
    (hfreq : input.Rule.Frequency = "" ∨ input.Rule.Frequency = "weekly")
    (htzne : goTrimSpace input.Rule.TimeZone ≠ "")
    (hloc : tzdb (goTrimSpace input.Rule.TimeZone) = some loc)
    (hse : input.StartTime < input.EndTime)
    (hdur : input.EndTime - input.StartTime ≤ hours24Ns)
    (hint : input.Rule.Interval = 0 ∨ 1 ≤ input.Rule.Interval)
    (hnorm : collectWeekdays [] (defaultedWeekdays loc input) = .ok normalized)
    (hnne : normalized ≠ [])
    (huntil : ∀ u, input.Rule.Until = some u → input.StartTime ≤ u)
    (hcount : ∀ c, input.Rule.Count = some c → 1 ≤ c) :
    (input.Rule.Count = none → input.Rule.Until = none →
      serviceCreateRecurringSeries tzdb repoCreate input =
        .error (.validation "until or count is required")) ∧
    (∀ u, input.Rule.Count = none → input.Rule.Until = some u →
      input.StartTime + RecurringConflictLookahead < u →
      serviceCreateRecurringSeries tzdb repoCreate input =
        .error (.validation "until must be within 180 days of start_time")) ∧
    (∀ occs, ¬(input.Rule.Until = none ∧ input.Rule.Count = none) →
      ¬(input.Rule.Count = none ∧ ∃ u, input.Rule.Until = some u ∧
          input.StartTime + RecurringConflictLookahead < u) →
      GenerateWeeklyOccurrences tzdb
          { serviceSeries input normalized with
            Until := some (occLimitEndOf input.StartTime input.Rule.Until), Count := none }
          input.StartTime
          (occLimitEndOf input.StartTime input.Rule.Until +
            (serviceSeries input normalized).DurationSeconds * nsPerSec) = .ok occs →
      (occs = [] →
        serviceCreateRecurringSeries tzdb repoCreate input =
          .error (.validation "recurrence rule produces no occurrences")) ∧
      (occs ≠ [] → ∀ c, input.Rule.Count = some c → occs.length < c →
        (∀ u, input.Rule.Until = some u →
          u < input.StartTime + RecurringConflictLookahead →
          serviceCreateRecurringSeries tzdb repoCreate input =
            .error (.validation "count exceeds occurrences available before until")) ∧
        ((input.Rule.Until = none ∨ ∃ u, input.Rule.Until = some u ∧
            input.StartTime + RecurringConflictLookahead ≤ u) →
          serviceCreateRecurringSeries tzdb repoCreate input =
            .error
              (.validation "count exceeds occurrences available within 180 days of start_time")))) := by
  have hfreq2 : ¬((if input.Rule.Frequency = "" then "weekly" else input.Rule.Frequency) ≠ "weekly") := by
    rcases hfreq with h | h <;> simp [h]
  have hse2 : ¬(input.EndTime = input.StartTime ∨ input.EndTime < input.StartTime) := by omega
  have hdur2 : ¬(hours24Ns < input.EndTime - input.StartTime) := by omega
  have hint2 : ¬((if input.Rule.Interval = 0 then 1 else input.Rule.Interval) < 1) := by
    rcases hint with h | h <;> simp [h] <;> omega
  have huntil2 : (match input.Rule.Until with
      | some u => decide (u < input.StartTime) | none => false) = false := by
    cases hu : input.Rule.Until with
    | none => rfl
    | some u => simpa using huntil u hu
  have hcount2 : (match input.Rule.Count with
      | some c => decide (c < 1) | none => false) = false := by
    cases hc : input.Rule.Count with
    | none => rfl
    | some c => simpa using hcount c hc
  refine ⟨?_, ?_, ?_⟩
  · intro hc hu
    simp only [serviceCreateRecurringSeries, hloc, hnorm, hc, hu]
    simp [htitle, huser, hfreq2, htzne, hse2, hdur2, hint2, hnne]
  · intro u hc hu hlate
    simp only [serviceCreateRecurringSeries, hloc, hnorm, hc, hu]
    simp [htitle, huser, hfreq2, htzne, hse2, hdur2, hint2, hnne, huntil u hu, hlate]
  · intro occs hucne hclate hgen
    have hlate2 : (decide (input.Rule.Count = none) && (match input.Rule.Until with
        | some u => decide (input.StartTime + RecurringConflictLookahead < u)
        | none => false)) = false := by
      cases hc : input.Rule.Count with
      | some c => simp [hc]
      | none =>
        cases hu : input.Rule.Until with
        | none => simp [hu]
        | some u =>
          have hnb : ¬(input.StartTime + RecurringConflictLookahead < u) :=
            fun hbad => hclate ⟨hc, u, hu, hbad⟩
          simp [hc, hu, hnb]
    have hucne2 : ¬(input.Rule.Until = none ∧ input.Rule.Count = none) := hucne
    refine ⟨?_, ?_⟩
    · intro hempty
      simp only [serviceCreateRecurringSeries, hloc, hnorm]
      simp [htitle, huser, hfreq2, htzne, hse2, hdur2, hint2, hnne, huntil2, hcount2,
        hucne2, hlate2, hgen, hempty]
    · intro hne c hcc hlen
      have hcnt3 : (match input.Rule.Count with
          | some c => decide (occs.length < c) | none => false) = true := by
        simp [hcc, hlen]
      refine ⟨?_, ?_⟩
      · intro u hu hlt
        have hmsg : (match input.Rule.Until with
            | some u => decide (u < input.StartTime + RecurringConflictLookahead)
            | none => false) = true := by simp [hu, hlt]
        simp only [serviceCreateRecurringSeries, hloc, hnorm]
        simp [htitle, huser, hfreq2, htzne, hse2, hdur2, hint2, hnne, huntil2, hcount2,
          hucne2, hlate2, hgen, hne, hcnt3, hmsg]
      · intro hcase
        have hmsg : (match input.Rule.Until with
            | some u => decide (u < input.StartTime + RecurringConflictLookahead)
            | none => false) = false := by
          rcases hcase with hu | ⟨u, hu, hge⟩
          · simp [hu]
          · simp [hu]
            omega
        simp only [serviceCreateRecurringSeries, hloc, hnorm]
        simp [htitle, huser, hfreq2, htzne, hse2, hdur2, hint2, hnne, huntil2, hcount2,
          hucne2, hlate2, hgen, hne, hcnt3, hmsg]

/-- Witness for C7: concrete inputs hit each validation branch. -/
theorem createRecurringSeries_horizon_validation_witness :
    serviceCreateRecurringSeries sampleTzdb repoWit inLate =
      .error (.validation "until must be within 180 days of start_time") ∧
    serviceCreateRecurringSeries sampleTzdb repoWit inEmpty =
      .error (.validation "recurrence rule produces no occurrences") ∧
    serviceCreateRecurringSeries sampleTzdb repoWit inBefore =
      .error (.validation "count exceeds occurrences available before until") ∧
    serviceCreateRecurringSeries sampleTzdb repoWit inWithin =
      .error (.validation "count exceeds occurrences available within 180 days of start_time") :=
  ⟨(createRecurringSeries_horizon_validation sampleTzdb repoWit inLate utcLoc [1] (by decide) (by decide) (by decide) (by decide)
      (by decide) (by decide) (by decide) (by decide) (by decide) (by decide)
      (by intro u hu; injection hu with h; subst h; decide)
      (by intro c hc; exact Option.noConfusion hc)).2.1
      (utcInstant 2026 12 1 0 0 0) (by decide) (by decide) (by decide),
   ((createRecurringSeries_horizon_validation sampleTzdb repoWit inEmpty utcLoc [1] (by decide) (by decide) (by decide) (by decide)
      (by decide) (by decide) (by decide) (by decide) (by decide) (by decide)
      (by intro u hu; injection hu with h; subst h; decide)
      (by intro c hc; exact Option.noConfusion hc)).2.2 []
      (by rintro ⟨h1, h2⟩; exact Option.noConfusion h1)
      (by rintro ⟨h1, u, hu, hbad⟩; injection hu with h; subst h; revert hbad; decide)
      (by decide)).1 rfl,
   ((createRecurringSeries_horizon_validation sampleTzdb repoWit inBefore utcLoc [1] (by decide) (by decide) (by decide) (by decide)
      (by decide) (by decide) (by decide) (by decide) (by decide) (by decide)
      (by intro u hu; injection hu with h; subst h; decide)
      (by intro c hc; injection hc with h; subst h; decide)).2.2 occSoloW
      (by rintro ⟨h1, h2⟩; exact Option.noConfusion h1)
      (by rintro ⟨h1, u, hu, hbad⟩; exact Option.noConfusion h1)
      (by decide)).2 (by decide) 5 rfl (by decide)
      |>.1 (utcInstant 2026 1 6 0 0 0) rfl (by decide),
   ((createRecurringSeries_horizon_validation sampleTzdb repoWit inWithin utcLoc [1] (by decide) (by decide) (by decide) (by decide)
      (by decide) (by decide) (by decide) (by decide) (by decide) (by decide)
      (by intro u hu; exact Option.noConfusion hu)
      (by intro c hc; injection hc with h; subst h; decide)).2.2 occSoloW
      (by rintro ⟨h1, h2⟩; exact Option.noConfusion h2)
      (by rintro ⟨h1, u, hu, hbad⟩; exact Option.noConfusion hu)
      (by decide)).2 (by decide) 5 rfl (by decide)
      |>.2 (Or.inl rfl)⟩

/-- C1: Given that the new series expands over the conflict horizon to
`newOccs` and that the user's stored series expand (exception-adjusted)
over the comparison window to `seriesSpans`, the pre-insert check
`ensureNoRecurringSeriesConflicts` fails with the conflict error if and
only if two consecutive occurrences of the sorted new expansion overlap
(`predecessor.end > successor.start`) or some new occurrence `n` and some
existing span `e` — a stored appointment of the user meeting the window,
or a span in `seriesSpans` — satisfy `n.start < e.end` and
`n.end > e.start`; both comparisons are strict, so exactly abutting
intervals never conflict. -/
theorem ensureNoRecurringSeriesConflicts_iff (tzdb : String → Option Location) (st : CalendarState)
    (series : RecurringSeries) (newOccs : List RecurringOccurrence)
    (seriesSpans : List TimeSpan)
    (hnew : newSeriesOccs tzdb series = .ok newOccs)
    (hspans : collectSeriesSpans tzdb st series.DTStart
        (((sortOccs newOccs).getLast?.map (fun o => o.EndTime)).getD 0)
        (txListRecurringSeries st series.UserID) = .ok seriesSpans) :
    ensureNoRecurringSeriesConflicts tzdb st series = .error .conflict ↔
      (consecutiveOverlap (sortOccs newOccs) = true ∨
       ∃ n ∈ newOccs,
         (∃ a ∈ txListAppointments st series.UserID series.DTStart
             (((sortOccs newOccs).getLast?.map (fun o => o.EndTime)).getD 0),
            n.StartTime < a.EndTime ∧ a.StartTime < n.EndTime) ∨
         (∃ e ∈ seriesSpans, n.StartTime < e.End ∧ e.Start < n.EndTime)) := by
  simp only [ensureNoRecurringSeriesConflicts, hnew]
  by_cases hne : newOccs = []
  · subst hne
    simp [sortOccs, sortBy, consecutiveOverlap]
  · simp only [if_neg hne]
    by_cases hco : consecutiveOverlap (sortOccs newOccs) = true
    · simp [hco]
    · rw [if_neg hco]
      rw [hspans]
      rw [ite_conflict_iff]
      constructor
      · intro h
        right
        simp only [List.any_eq_true, sortOccs, mem_sortBy, List.mem_append, List.mem_map,
          spanOverlaps, decide_eq_true_eq] at h
        obtain ⟨n, hn, e, he, hov⟩ := h
        refine ⟨n, hn, ?_⟩
        rcases he with ⟨a, ha, rfl⟩ | he
        · exact Or.inl ⟨a, ha, hov⟩
        · exact Or.inr ⟨e, he, hov⟩
      · intro h
        rcases h with h | ⟨n, hn, hcase⟩
        · exact absurd h hco
        · simp only [List.any_eq_true, sortOccs, mem_sortBy, List.mem_append, List.mem_map,
            spanOverlaps, decide_eq_true_eq]
          refine ⟨n, hn, ?_⟩
          rcases hcase with ⟨a, ha, hov⟩ | ⟨e, he, hov⟩
          · exact ⟨_, Or.inl ⟨a, ha, rfl⟩, hov⟩
          · exact ⟨e, Or.inr he, hov⟩

/-- Witness for C1: a stored appointment overlapping the second occurrence
of a concrete two-occurrence series makes the check fail with conflict. -/
theorem ensureNoRecurringSeriesConflicts_iff_witness :
    ensureNoRecurringSeriesConflicts sampleTzdb stC1 seriesC1 = .error .conflict :=
  (ensureNoRecurringSeriesConflicts_iff sampleTzdb stC1 seriesC1 occsC1 [] (by decide) (by decide)).mpr (by decide)

/-- `List.getD` at a position where `drop` uncovers a cons. -/
theorem getD_of_drop_cons {l : List Int} :
    ∀ {j : Nat} {wd : Int} {rest : List Int}, l.drop j = wd :: rest → l.getD j 0 = wd := by
  induction l with
  | nil => intro j wd rest h; simp at h
  | cons x xs ih =>
    intro j wd rest h
    cases j with
    | zero => simp at h; simp [h.1]
    | succ j => exact ih (by simpa using h)

theorem drop_succ_of_drop_cons {l : List Int} :
    ∀ {j : Nat} {wd : Int} {rest : List Int}, l.drop j = wd :: rest → l.drop (j + 1) = rest := by
  induction l with
  | nil => intro j wd rest h; simp at h
  | cons x xs ih =>
    intro j wd rest h
    cases j with
    | zero => simp at h; simp [h.2]
    | succ j => exact ih (by simpa using h)

theorem weekdayLoop_append (ctx : GenCtx) (m w : Int) :
    ∀ (wds : List Int) (j : Int) (out : List RecurringOccurrence),
      weekdayLoop ctx m w wds j out =
        ((weekdayLoop ctx m w wds j []).1, out ++ (weekdayLoop ctx m w wds j []).2) := by
  intro wds
  induction wds with
  | nil => intro j out; simp [weekdayLoop]
  | cons wd rest ih =>
    intro j out
    rw [weekdayLoop, weekdayLoop]
    by_cases h1 : ctx.candidate m wd < ctx.dtstartUTC
    · rw [if_pos h1, if_pos h1, ih (j + 1) out]
    · rw [if_neg h1, if_neg h1]
      by_cases h2 : untilExceeded ctx.untilUTC (ctx.candidate m wd) = true
      · rw [if_pos h2, if_pos h2]
        simp
      · rw [if_neg h2, if_neg h2]
        by_cases h3 : 0 ≤ ctx.maxCount ∧
            ctx.maxCount ≤ w * ctx.occPerWeek + j - ctx.skippedInFirstWeek
        · rw [if_pos h3, if_pos h3]
          simp
        · rw [if_neg h3, if_neg h3]
          dsimp only
          by_cases h4 : ctx.candidate m wd < ctx.windowEnd ∧
              ctx.windowStart < ctx.candidate m wd + ctx.durationNs
          · rw [if_pos h4, if_pos h4, ih (j + 1), ih (j + 1)
              ([] ++ [ctx.mkOcc (ctx.candidate m wd) (ctx.candidate m wd + ctx.durationNs)])]
            simp
          · rw [if_neg h4, if_neg h4, ih (j + 1) out]

theorem weekLoop_append (ctx : GenCtx) :
    ∀ (fuel : Nat) (w : Int) (out : List RecurringOccurrence),
      weekLoop ctx fuel w out = out ++ weekLoop ctx fuel w [] := by
  intro fuel
  induction fuel with
  | zero => intro w out; simp [weekLoop]
  | succ fuel ih =>
    intro w out
    rw [weekLoop, weekLoop]
    by_cases h1 : ctx.boundary ≤ ctx.startWeekMonday + w * ctx.interval * 7
    · rw [if_pos h1, if_pos h1]
      simp
    · rw [if_neg h1, if_neg h1]
      rw [weekdayLoop_append ctx (ctx.startWeekMonday + w * ctx.interval * 7) w ctx.weekdays 0 out]
      rcases hres : weekdayLoop ctx (ctx.startWeekMonday + w * ctx.interval * 7) w ctx.weekdays 0 []
        with ⟨stop, t⟩
      cases stop with
      | true => simp
      | false =>
        simp only
        rw [ih (w + 1) (out ++ t), ih (w + 1) t]
        simp

theorem ctxF_candidate (ctx : GenCtx) (m wd : Int) :
    GenCtx.candidate { ctx with maxCount := -1 } m wd = ctx.candidate m wd := rfl

theorem ctxF_mkOcc (ctx : GenCtx) (s e : Int) :
    GenCtx.mkOcc { ctx with maxCount := -1 } s e = ctx.mkOcc s e := rfl

theorem wdLoop_lockstep (ctx : GenCtx) (m w b s0 : Int)
    (hN : 0 ≤ ctx.maxCount)
    (hcond : ∀ j : Int, ctx.maxCount ≤ w * ctx.occPerWeek + j - ctx.skippedInFirstWeek ↔
        ctx.maxCount ≤ b + j)
    (hcoh : b + s0 = 0 ∨ (s0 = 0 ∧ 0 ≤ b))
    (hs00 : 0 ≤ s0)
    (hA2 : ∀ j : Nat, j < ctx.weekdays.length →
      (ctx.candidate m (ctx.weekdays.getD j 0) < ctx.dtstartUTC ↔ (j : Int) < s0))
    (hC2 : ∀ j : Nat, j < ctx.weekdays.length →
      ¬ctx.candidate m (ctx.weekdays.getD j 0) < ctx.dtstartUTC →
      b + (j : Int) < ctx.maxCount →
      ctx.candidate m (ctx.weekdays.getD j 0) < ctx.windowEnd ∧
        ctx.windowStart < ctx.candidate m (ctx.weekdays.getD j 0) + ctx.durationNs) :
    ∀ (wds' : List Int) (j : Nat), ctx.weekdays.drop j = wds' →
      ((b + (j : Int)).toNat : Int) ≤ ctx.maxCount →
      ((weekdayLoop ctx m w wds' (j : Int) []).1 = false ∧
        (weekdayLoop { ctx with maxCount := -1 } m w wds' (j : Int) []).1 = false ∧
        (weekdayLoop ctx m w wds' (j : Int) []).2 =
          (weekdayLoop { ctx with maxCount := -1 } m w wds' (j : Int) []).2 ∧
        (weekdayLoop ctx m w wds' (j : Int) []).2.length =
          (b + (ctx.weekdays.length : Int)).toNat - (b + (j : Int)).toNat ∧
        ((b + (ctx.weekdays.length : Int)).toNat : Int) ≤ ctx.maxCount) ∨
      ((weekdayLoop ctx m w wds' (j : Int) []).1 = true ∧
        (weekdayLoop { ctx with maxCount := -1 } m w wds' (j : Int) []).1 = true ∧
        (weekdayLoop ctx m w wds' (j : Int) []).2 =
          (weekdayLoop { ctx with maxCount := -1 } m w wds' (j : Int) []).2 ∧
        ((weekdayLoop ctx m w wds' (j : Int) []).2.length : Int) +
          ((b + (j : Int)).toNat : Int) ≤ ctx.maxCount) ∨
      ((weekdayLoop ctx m w wds' (j : Int) []).1 = true ∧
        ∃ F2, (weekdayLoop { ctx with maxCount := -1 } m w wds' (j : Int) []).2 =
            (weekdayLoop ctx m w wds' (j : Int) []).2 ++ F2 ∧
          ((weekdayLoop ctx m w wds' (j : Int) []).2.length : Int) =
            ctx.maxCount - ((b + (j : Int)).toNat : Int)) := by
  intro wds'
  induction wds' with
  | nil =>
    intro j hdrop hentry
    left
    have hlen : ctx.weekdays.length ≤ j := by
      by_contra hlt
      have := List.drop_eq_nil_iff.mp hdrop
      omega
    refine ⟨rfl, rfl, rfl, ?_, ?_⟩
    · show ([] : List RecurringOccurrence).length = _
      simp only [List.length_nil]
      omega
    · omega
  | cons wd rest ih =>
    intro j hdrop hentry
    have hjlt : j < ctx.weekdays.length := by
      by_contra hge
      rw [List.drop_eq_nil_of_le (Nat.le_of_not_lt hge)] at hdrop
      simp at hdrop
    have hwd : ctx.weekdays.getD j 0 = wd := getD_of_drop_cons hdrop
    have hdrop' : ctx.weekdays.drop (j + 1) = rest := drop_succ_of_drop_cons hdrop
    have hcast : ((j : Int) + 1) = ((j + 1 : Nat) : Int) := by push_cast; ring
    rw [weekdayLoop, weekdayLoop]
    dsimp only
    simp only [ctxF_candidate, ctxF_mkOcc]
    by_cases hskip : ctx.candidate m wd < ctx.dtstartUTC
    · rw [if_pos hskip, if_pos hskip, hcast]
      have hjs : (j : Int) < s0 := by
        have := (hA2 j hjlt)
        rw [hwd] at this
        exact this.mp hskip
      have hbj : b + (j : Int) < 0 := by
        rcases hcoh with h | ⟨h1, h2⟩ <;> omega
      have hentry' : ((b + ((j + 1 : Nat) : Int)).toNat : Int) ≤ ctx.maxCount := by
        push_cast
        rcases hcoh with h | ⟨h1, h2⟩ <;> omega
      rcases ih (j + 1) hdrop' hentry' with ⟨h1, h2, h3, h4, h5⟩ | ⟨h1, h2, h3, h4⟩ |
        ⟨h1, F2, h2, h3⟩
      · left
        refine ⟨h1, h2, h3, ?_, h5⟩
        rw [h4]
        push_cast
        omega
      · right; left
        refine ⟨h1, h2, h3, ?_⟩
        push_cast at h4 ⊢
        omega
      · right; right
        refine ⟨h1, F2, h2, ?_⟩
        push_cast at h3 ⊢
        omega
    · rw [if_neg hskip, if_neg hskip]
      have hjge : ¬ (j : Int) < s0 := by
        have := (hA2 j hjlt)
        rw [hwd] at this
        exact fun hc => hskip (this.mpr hc)
      have hbj0 : 0 ≤ b + (j : Int) := by
        rcases hcoh with h | ⟨h1, h2⟩ <;> omega
      by_cases huntil : untilExceeded ctx.untilUTC (ctx.candidate m wd) = true
      · rw [if_pos huntil, if_pos huntil]
        right; left
        refine ⟨rfl, rfl, rfl, ?_⟩
        simp only [List.length_nil]
        omega
      · rw [if_neg huntil, if_neg huntil]
        by_cases hfire : ctx.maxCount ≤ b + (j : Int)
        · rw [if_pos ⟨hN, (hcond (j : Int)).mpr hfire⟩]
          rw [if_neg (fun hc : 0 ≤ (-1 : Int) ∧ (-1 : Int) ≤ w * ctx.occPerWeek + (j : Int) - ctx.skippedInFirstWeek => absurd hc.1 (by decide))]
          right; right
          refine ⟨rfl, ?_⟩
          dsimp only
          by_cases hwin : ctx.candidate m wd < ctx.windowEnd ∧
              ctx.windowStart < ctx.candidate m wd + ctx.durationNs
          · rw [if_pos hwin]
            refine ⟨(weekdayLoop { ctx with maxCount := -1 } m w rest ((j : Int) + 1)
              ([] ++ [ctx.mkOcc (ctx.candidate m wd)
                (ctx.candidate m wd + ctx.durationNs)])).2, by simp, by
              simp only [List.length_nil]
              omega⟩
          · rw [if_neg hwin]
            refine ⟨(weekdayLoop { ctx with maxCount := -1 } m w rest ((j : Int) + 1) []).2,
              by simp, by
              simp only [List.length_nil]
              omega⟩
        · rw [if_neg (fun hc : 0 ≤ ctx.maxCount ∧ ctx.maxCount ≤ w * ctx.occPerWeek + (j : Int) - ctx.skippedInFirstWeek => hfire ((hcond (j : Int)).mp hc.2))]
          rw [if_neg (fun hc : 0 ≤ (-1 : Int) ∧ (-1 : Int) ≤ w * ctx.occPerWeek + (j : Int) - ctx.skippedInFirstWeek => absurd hc.1 (by decide))]
          have hwin : ctx.candidate m wd < ctx.windowEnd ∧
              ctx.windowStart < ctx.candidate m wd + ctx.durationNs := by
            have := hC2 j hjlt
            rw [hwd] at this
            exact this hskip (by omega)
          rw [if_pos hwin]
          rw [List.nil_append]
          rw [weekdayLoop_append ctx m w rest ((j : Int) + 1)
            [ctx.mkOcc (ctx.candidate m wd) (ctx.candidate m wd + ctx.durationNs)]]
          rw [weekdayLoop_append { ctx with maxCount := -1 } m w rest ((j : Int) + 1)
            [ctx.mkOcc (ctx.candidate m wd) (ctx.candidate m wd + ctx.durationNs)]]
          rw [hcast]
          have hentry' : ((b + ((j + 1 : Nat) : Int)).toNat : Int) ≤ ctx.maxCount := by
            push_cast
            omega
          rcases ih (j + 1) hdrop' hentry' with ⟨h1, h2, h3, h4, h5⟩ | ⟨h1, h2, h3, h4⟩ |
            ⟨h1, F2, h2, h3⟩
          · left
            refine ⟨h1, h2, by rw [h3], ?_, h5⟩
            simp only [List.length_append, List.length_cons, List.length_nil, h4]
            push_cast at h4 ⊢
            omega
          · right; left
            refine ⟨h1, h2, by rw [h3], ?_⟩
            simp only [List.length_append, List.length_cons, List.length_nil]
            push_cast at h4 ⊢
            omega
          · right; right
            refine ⟨h1, F2, by rw [h2, List.append_assoc], ?_⟩
            simp only [List.length_append, List.length_cons, List.length_nil]
            push_cast at h3 ⊢
            omega

theorem weekLoop_lockstep (ctx : GenCtx)
    (hN : 0 ≤ ctx.maxCount)
    (hK : ctx.occPerWeek = (ctx.weekdays.length : Int))
    (hS0 : 0 ≤ ctx.skippedInFirstWeek)
    (hSK : ctx.skippedInFirstWeek ≤ ctx.occPerWeek)
    (hA : ∀ wq : Int, 0 ≤ wq → ctx.startWeekMonday + wq * ctx.interval * 7 < ctx.boundary →
      ∀ j : Nat, j < ctx.weekdays.length →
      (ctx.candidate (ctx.startWeekMonday + wq * ctx.interval * 7) (ctx.weekdays.getD j 0)
          < ctx.dtstartUTC ↔ wq = 0 ∧ (j : Int) < ctx.skippedInFirstWeek))
    (hC : ∀ wq : Int, 0 ≤ wq → ctx.startWeekMonday + wq * ctx.interval * 7 < ctx.boundary →
      ∀ j : Nat, j < ctx.weekdays.length →
      ¬ctx.candidate (ctx.startWeekMonday + wq * ctx.interval * 7) (ctx.weekdays.getD j 0)
          < ctx.dtstartUTC →
      wq * ctx.occPerWeek + (j : Int) - ctx.skippedInFirstWeek < ctx.maxCount →
      ctx.candidate (ctx.startWeekMonday + wq * ctx.interval * 7) (ctx.weekdays.getD j 0)
          < ctx.windowEnd ∧
        ctx.windowStart < ctx.candidate (ctx.startWeekMonday + wq * ctx.interval * 7)
          (ctx.weekdays.getD j 0) + ctx.durationNs) :
    ∀ (fuel : Nat) (w b : Int), 0 ≤ w →
      b = w * ctx.occPerWeek - ctx.skippedInFirstWeek →
      ((w = 0 ∧ b = -ctx.skippedInFirstWeek) ∨ (1 ≤ w ∧ 0 ≤ b)) →
      (b.toNat : Int) ≤ ctx.maxCount →
      weekLoop ctx fuel w [] =
        (weekLoop { ctx with maxCount := -1 } fuel w []).take
          (ctx.maxCount - (b.toNat : Int)).toNat := by
  intro fuel
  induction fuel with
  | zero =>
    intro w b hw hbdef hw0 hentry
    simp [weekLoop]
  | succ fuel ih =>
    intro w b hw hbdef hw0 hentry
    rw [weekLoop, weekLoop]
    dsimp only
    by_cases hb1 : ctx.boundary ≤ ctx.startWeekMonday + w * ctx.interval * 7
    · rw [if_pos hb1, if_pos hb1]
      simp
    · rw [if_neg hb1, if_neg hb1]
      have hb1' : ctx.startWeekMonday + w * ctx.interval * 7 < ctx.boundary := by omega
      have hcond : ∀ jq : Int,
          ctx.maxCount ≤ w * ctx.occPerWeek + jq - ctx.skippedInFirstWeek ↔
            ctx.maxCount ≤ b + jq := by
        intro jq
        rw [hbdef]
        constructor <;> intro h <;> linarith
      have hcoh : b + (if w = 0 then ctx.skippedInFirstWeek else 0) = 0 ∨
          ((if w = 0 then ctx.skippedInFirstWeek else 0) = 0 ∧ 0 ≤ b) := by
        rcases hw0 with ⟨h1, h2⟩ | ⟨h1, h2⟩
        · rw [if_pos h1]
          omega
        · rw [if_neg (by omega)]
          omega
      have hs00 : 0 ≤ (if w = 0 then ctx.skippedInFirstWeek else 0) := by
        split <;> omega
      have hA2 : ∀ j : Nat, j < ctx.weekdays.length →
          (ctx.candidate (ctx.startWeekMonday + w * ctx.interval * 7) (ctx.weekdays.getD j 0)
            < ctx.dtstartUTC ↔ (j : Int) < (if w = 0 then ctx.skippedInFirstWeek else 0)) := by
        intro j hj
        rw [hA w hw hb1' j hj]
        by_cases hwz : w = 0
        · rw [if_pos hwz]
          simp [hwz]
        · rw [if_neg hwz]
          constructor
          · rintro ⟨h1, _⟩
            exact absurd h1 hwz
          · intro h
            omega
      have hC2 : ∀ j : Nat, j < ctx.weekdays.length →
          ¬ctx.candidate (ctx.startWeekMonday + w * ctx.interval * 7) (ctx.weekdays.getD j 0)
            < ctx.dtstartUTC →
          b + (j : Int) < ctx.maxCount →
          ctx.candidate (ctx.startWeekMonday + w * ctx.interval * 7) (ctx.weekdays.getD j 0)
            < ctx.windowEnd ∧
            ctx.windowStart < ctx.candidate (ctx.startWeekMonday + w * ctx.interval * 7)
              (ctx.weekdays.getD j 0) + ctx.durationNs := by
        intro j hj hns hlt
        refine hC w hw hb1' j hj hns ?_
        rw [hbdef] at hlt
        linarith
      have hinner := wdLoop_lockstep ctx (ctx.startWeekMonday + w * ctx.interval * 7) w b
        (if w = 0 then ctx.skippedInFirstWeek else 0) hN hcond hcoh hs00 hA2 hC2
        ctx.weekdays 0 (by simp) (by simpa using hentry)
      have hcast0 : ((0 : Nat) : Int) = 0 := rfl
      rw [hcast0] at hinner
      rcases hresC : weekdayLoop ctx (ctx.startWeekMonday + w * ctx.interval * 7) w
          ctx.weekdays 0 [] with ⟨bC, C⟩
      rcases hresF : weekdayLoop { ctx with maxCount := -1 }
          (ctx.startWeekMonday + w * ctx.interval * 7) w ctx.weekdays 0 [] with ⟨bF, F⟩
      rw [hresC, hresF] at hinner
      have hKnn : 0 ≤ ctx.occPerWeek := by
        rw [hK]
        omega
      rcases hinner with ⟨h1, h2, h3, h4, h5⟩ | ⟨h1, h2, h3, h4⟩ | ⟨h1, F2, h2, h3⟩
      · dsimp only at h1 h2 h3 h4 h5 ⊢
        subst h1
        subst h2
        dsimp only
        rw [weekLoop_append ctx fuel (w + 1) C,
          weekLoop_append { ctx with maxCount := -1 } fuel (w + 1) F, ← h3]
        have hbK : b + ctx.occPerWeek = (w + 1) * ctx.occPerWeek - ctx.skippedInFirstWeek := by
          rw [hbdef]
          ring
        have hnext : 0 ≤ b + ctx.occPerWeek := by
          rcases hw0 with ⟨hh1, hh2⟩ | ⟨hh1, hh2⟩ <;> omega
      -- simp only [hresC, hresF] at hinner? placeholder
        have hihres := ih (w + 1) (b + ctx.occPerWeek) (by omega) hbK (Or.inr ⟨by omega, hnext⟩)
          (by
            rw [hK]
            omega)
        rw [hihres]
        rw [List.take_append_eq_append_take]
        have hlenC : C.length ≤ (ctx.maxCount - (b.toNat : Int)).toNat := by
          omega
        rw [List.take_all_of_le hlenC]
        have harith : (ctx.maxCount - (b.toNat : Int)).toNat - C.length =
            (ctx.maxCount - (((b + ctx.occPerWeek).toNat : Nat) : Int)).toNat := by
          rw [hK]
          omega
        rw [harith]
      · dsimp only at h1 h2 h3 h4 ⊢
        subst h1
        subst h2
        dsimp only
        rw [← h3]
        have hlenC : C.length ≤ (ctx.maxCount - (b.toNat : Int)).toNat := by omega
        rw [List.take_all_of_le hlenC]
      · dsimp only at h1 h2 h3 ⊢
        subst h1
        dsimp only
        have hlen : (ctx.maxCount - (b.toNat : Int)).toNat = C.length := by omega
        cases bF with
        | true =>
          dsimp only
          rw [h2, hlen, List.take_left]
        | false =>
          dsimp only
          rw [weekLoop_append { ctx with maxCount := -1 } fuel (w + 1) F, h2,
            List.append_assoc, hlen, List.take_left]

/-- C4: For a weekly series with count N (under the engine's validation
hypotheses, a window whose start week index is 0; `hA2` states that the
candidates falling before dtstart are exactly the first-week prefix counted
by `skippedInFirstWeek`, `hC2` that every counted candidate below the count
cap meets the window, and `W` bounds the number of week iterations): the
expansion never emits an occurrence whose UTC start is strictly before
dtstart, and it equals the first N occurrences of the same series expanded
without a count — the count index is a global ordinal over candidates that
excludes the skipped first-week candidates — so whenever the count-free
expansion admits at least N occurrences, the expansion yields exactly N. -/
theorem generate_count_global_ordinal (tzdb : String → Option Location) (series : RecurringSeries) (N : Int)
    (loc : Location) (wds : List Int) (ws we : Int) (W : Nat) (ctx : GenCtx)
    (hcount : series.Count = some N) (hN : 0 ≤ N)
    (hloc : tzdb series.Timezone = some loc)
    (hwds : collectWeekdays [] series.ByWeekday = .ok wds) (hwne : wds ≠ [])
    (hfreq : series.Frequency = "weekly") (hdur : 0 < series.DurationSeconds)
    (hctx : ctx = mkGenCtx loc series (sortBy (fun a b => a ≤ b) wds) ws we)
    (hstart0 : startWeekIndexOf ctx = 0)
    (hW : ctx.boundary ≤ ctx.startWeekMonday + (W : Int) * ctx.interval * 7)
    (hA2 : ∀ w : Nat, w < W → ∀ j : Nat, j < ctx.weekdays.length →
      (ctx.candidate (ctx.startWeekMonday + (w : Int) * ctx.interval * 7) (ctx.weekdays.getD j 0)
          < ctx.dtstartUTC ↔ ((w : Int) = 0 ∧ (j : Int) < ctx.skippedInFirstWeek)))
    (hC2 : ∀ w : Nat, w < W → ∀ j : Nat, j < ctx.weekdays.length →
      ¬ctx.candidate (ctx.startWeekMonday + (w : Int) * ctx.interval * 7) (ctx.weekdays.getD j 0)
          < ctx.dtstartUTC →
      (w : Int) * ctx.occPerWeek + (j : Int) - ctx.skippedInFirstWeek < N →
      ctx.candidate (ctx.startWeekMonday + (w : Int) * ctx.interval * 7) (ctx.weekdays.getD j 0)
          < ctx.windowEnd ∧
        ctx.windowStart < ctx.candidate (ctx.startWeekMonday + (w : Int) * ctx.interval * 7)
          (ctx.weekdays.getD j 0) + ctx.durationNs) :
    (∀ occs, GenerateWeeklyOccurrences tzdb series ws we = .ok occs →
       ∀ o ∈ occs, series.DTStart ≤ o.StartTime) ∧
    (∀ occsF, GenerateWeeklyOccurrences tzdb { series with Count := none } ws we = .ok occsF →
       GenerateWeeklyOccurrences tzdb series ws we = .ok (occsF.take N.toNat) ∧
       (N ≤ (occsF.length : Int) →
         ∃ occs, GenerateWeeklyOccurrences tzdb series ws we = .ok occs ∧
           (occs.length : Int) = N)) := by
  have hfreq2 : ¬series.Frequency ≠ "weekly" := by
    rw [hfreq]
    simp
  have hdur2 : ¬series.DurationSeconds ≤ 0 := by omega
  have hmc : ctx.maxCount = N := by
    rw [hctx]
    show (match series.Count with | some c => c | none => -1) = N
    rw [hcount]
  have hgen1 : GenerateWeeklyOccurrences tzdb series ws we =
      .ok (weekLoop ctx (genFuel ctx.startWeekMonday ctx.boundary 0 ctx.interval) 0 []) := by
    rw [GenerateWeeklyOccurrences]
    rw [if_neg hfreq2, if_neg hdur2, hloc, hwds]
    dsimp only
    rw [if_neg hwne]
    rw [← hctx, hstart0]
  have hctxF : mkGenCtx loc { series with Count := none }
      (sortBy (fun a b => a ≤ b) wds) ws we = { ctx with maxCount := -1 } := by
    rw [hctx]
    rfl
  have hgen2 : GenerateWeeklyOccurrences tzdb { series with Count := none } ws we =
      .ok (weekLoop { ctx with maxCount := -1 }
        (genFuel ctx.startWeekMonday ctx.boundary 0 ctx.interval) 0 []) := by
    rw [GenerateWeeklyOccurrences]
    rw [if_neg hfreq2, if_neg hdur2, hloc, hwds]
    dsimp only
    rw [if_neg hwne]
    rw [hctxF]
    rw [show startWeekIndexOf { ctx with maxCount := -1 } = startWeekIndexOf ctx from rfl,
      hstart0]
  have hNc : 0 ≤ ctx.maxCount := by omega
  have hKc : ctx.occPerWeek = (ctx.weekdays.length : Int) := by
    rw [hctx]
    rfl
  have hS0c : 0 ≤ ctx.skippedInFirstWeek := by
    rw [hctx]
    show (0 : Int) ≤ ((List.countP _ _ : Nat) : Int)
    omega
  have hSKc : ctx.skippedInFirstWeek ≤ ctx.occPerWeek := by
    rw [hctx]
    show ((List.countP _ _ : Nat) : Int) ≤ ((List.length _ : Nat) : Int)
    exact_mod_cast List.countP_le_length _
  have hiv : 1 ≤ ctx.interval := by
    rw [hctx]
    show 1 ≤ (if series.Interval < 1 then 1 else series.Interval)
    split <;> omega
  have hwlt : ∀ wq : Int, 0 ≤ wq →
      ctx.startWeekMonday + wq * ctx.interval * 7 < ctx.boundary → wq.toNat < W := by
    intro wq hwq hrange
    by_contra hge
    have hge' : (W : Int) ≤ wq := by omega
    have hmono : (W : Int) * (ctx.interval * 7) ≤ wq * (ctx.interval * 7) :=
      mul_le_mul_of_nonneg_right hge' (by omega)
    have he1 : (W : Int) * (ctx.interval * 7) = (W : Int) * ctx.interval * 7 := by ring
    have he2 : wq * (ctx.interval * 7) = wq * ctx.interval * 7 := by ring
    rw [he1, he2] at hmono
    linarith
  have hAc : ∀ wq : Int, 0 ≤ wq →
      ctx.startWeekMonday + wq * ctx.interval * 7 < ctx.boundary →
      ∀ j : Nat, j < ctx.weekdays.length →
      (ctx.candidate (ctx.startWeekMonday + wq * ctx.interval * 7) (ctx.weekdays.getD j 0)
          < ctx.dtstartUTC ↔ wq = 0 ∧ (j : Int) < ctx.skippedInFirstWeek) := by
    intro wq hwq hrange j hj
    have := hA2 wq.toNat (hwlt wq hwq hrange) j hj
    rw [Int.toNat_of_nonneg hwq] at this
    exact this
  have hCc : ∀ wq : Int, 0 ≤ wq →
      ctx.startWeekMonday + wq * ctx.interval * 7 < ctx.boundary →
      ∀ j : Nat, j < ctx.weekdays.length →
      ¬ctx.candidate (ctx.startWeekMonday + wq * ctx.interval * 7) (ctx.weekdays.getD j 0)
          < ctx.dtstartUTC →
      wq * ctx.occPerWeek + (j : Int) - ctx.skippedInFirstWeek < ctx.maxCount →
      ctx.candidate (ctx.startWeekMonday + wq * ctx.interval * 7) (ctx.weekdays.getD j 0)
          < ctx.windowEnd ∧
        ctx.windowStart < ctx.candidate (ctx.startWeekMonday + wq * ctx.interval * 7)
          (ctx.weekdays.getD j 0) + ctx.durationNs := by
    intro wq hwq hrange j hj hns hlt
    have := hC2 wq.toNat (hwlt wq hwq hrange) j hj
    rw [Int.toNat_of_nonneg hwq] at this
    exact this hns (by omega)
  have hls := weekLoop_lockstep ctx hNc hKc hS0c hSKc hAc hCc
    (genFuel ctx.startWeekMonday ctx.boundary 0 ctx.interval) 0 (-ctx.skippedInFirstWeek)
    le_rfl (by ring) (Or.inl ⟨rfl, rfl⟩) (by omega)
  have harith : (ctx.maxCount - (((-ctx.skippedInFirstWeek).toNat : Nat) : Int)).toNat =
      N.toNat := by omega
  rw [harith] at hls
  constructor
  · intro occs hok o ho
    exact (generate_mem_shape hloc hok o ho).2.1
  · intro occsF hokF
    rw [hgen2] at hokF
    rw [Except.ok.injEq] at hokF
    rw [hgen1, hls, hokF]
    refine ⟨rfl, ?_⟩
    intro hNle
    refine ⟨occsF.take N.toNat, rfl, ?_⟩
    rw [List.length_take]
    omega

/-- Witness for C4: a UTC Monday series with count 2 over a three-week
window expands to the first two of the three count-free occurrences. -/
theorem generate_count_global_ordinal_witness :
    GenerateWeeklyOccurrences sampleTzdb seriesC4 (utcInstant 2026 1 5 9 0 0)
        (utcInstant 2026 1 26 0 0 0) = .ok (occsFC4.take (2 : Int).toNat) ∧
    (∀ o ∈ occsFC4.take (2 : Int).toNat, seriesC4.DTStart ≤ o.StartTime) ∧
    (∃ occs, GenerateWeeklyOccurrences sampleTzdb seriesC4 (utcInstant 2026 1 5 9 0 0)
        (utcInstant 2026 1 26 0 0 0) = .ok occs ∧ (occs.length : Int) = 2) :=
  ⟨((generate_count_global_ordinal sampleTzdb seriesC4 2 utcLoc [1] (utcInstant 2026 1 5 9 0 0)
      (utcInstant 2026 1 26 0 0 0) 4 ctxC4 (by decide) (by decide) (by decide) (by decide)
      (by decide) (by decide) (by decide) rfl (by decide) (by decide) (by decide)
      (by decide)).2 occsFC4 (by decide)).1,
   fun o ho =>
     (generate_count_global_ordinal sampleTzdb seriesC4 2 utcLoc [1] (utcInstant 2026 1 5 9 0 0)
      (utcInstant 2026 1 26 0 0 0) 4 ctxC4 (by decide) (by decide) (by decide) (by decide)
      (by decide) (by decide) (by decide) rfl (by decide) (by decide) (by decide)
      (by decide)).1 (occsFC4.take (2 : Int).toNat)
      ((generate_count_global_ordinal sampleTzdb seriesC4 2 utcLoc [1] (utcInstant 2026 1 5 9 0 0)
        (utcInstant 2026 1 26 0 0 0) 4 ctxC4 (by decide) (by decide) (by decide) (by decide)
        (by decide) (by decide) (by decide) rfl (by decide) (by decide) (by decide)
        (by decide)).2 occsFC4 (by decide)).1 o ho,
   ((generate_count_global_ordinal sampleTzdb seriesC4 2 utcLoc [1] (utcInstant 2026 1 5 9 0 0)
      (utcInstant 2026 1 26 0 0 0) 4 ctxC4 (by decide) (by decide) (by decide) (by decide)
      (by decide) (by decide) (by decide) rfl (by decide) (by decide) (by decide)
      (by decide)).2 occsFC4 (by decide)).2 (by decide)⟩

end Schedula
